import Mathlib

set_option maxRecDepth 100000

/-
Verification development for the rust-asn1 library.

Bytes are modelled as `Nat` values (each input byte is < 256, matching `u8`);
byte buffers are `List Nat`.  `u64` arithmetic from the source is modelled as
`Nat` with explicit overflow checks against `2 ^ 64 = u64Size`, mirroring the
`checked_mul` / `checked_add` calls of the source.  Fallible code returns
`Except ParseFail _`; `ParseFail.err c` carries the `ErrorCode` (the spec
compares errors by kind only, so diagnostic messages are dropped),
`ParseFail.fuelOut` marks exhaustion of the termination fuel used to model the
source's recursion (never reached for the fuel supplied by the entry points),
and `ParseFail.outOfBounds` marks a place where the source would panic
(slice indexing / `unwrap` / `expect` / `assert!`).
-/

deriving instance DecidableEq for Except

def u64Size : Nat := 18446744073709551616

/-- Error kinds, from src/errors.rs (`ErrorCode`). -/
inductive ErrorCode where
  | unexpectedFieldType
  | invalidASN1Object
  | invalidASN1IntegerEncoding
  | truncatedASN1Field
  | unsupportedFieldLength
  | invalidPEMDocument
  | invalidStringRepresentation
  | tooFewOIDComponents
  | valueOutOfRange
deriving DecidableEq

/-- Failure type for the embedded fallible functions. -/
inductive ParseFail where
  | err (code : ErrorCode)
  | fuelOut
  | outOfBounds
deriving DecidableEq

/-- Tag classes, from src/asn1_types/identifier.rs (`TagClass`). -/
inductive TagClass where
  | universal
  | application
  | contextSpecific
  | priv
deriving DecidableEq

/-- TagClass::from_top_byte: the high two bits select the class.
For a byte `b < 256`, `b >>> 6 ≤ 3`, so the catch-all arm is the index-3
(`Private`) entry of the source's lookup array. -/
def TagClass.fromTopByte (b : Nat) : TagClass :=
  match b >>> 6 with
  | 0 => .universal
  | 1 => .application
  | 2 => .contextSpecific
  | _ => .priv

/-- TagClass::top_byte_flags. -/
def TagClass.topByteFlags : TagClass → Nat
  | .universal => 0x00
  | .application => 0x40
  | .contextSpecific => 0x80
  | .priv => 0xC0

/-- ASN1Identifier, from src/asn1_types/identifier.rs. -/
structure ASN1Identifier where
  tagNumber : Nat
  tagClass : TagClass
deriving DecidableEq

/-- ASN1Identifier::from_short_identifier. -/
def ASN1Identifier.fromShortIdentifier (b : Nat) : ASN1Identifier :=
  ⟨b &&& 0x1F, TagClass.fromTopByte b⟩

/-- ASN1Identifier::short_form. -/
def ASN1Identifier.shortForm (i : ASN1Identifier) : Option Nat :=
  if i.tagNumber < 0x1F then some (i.tagNumber ||| i.tagClass.topByteFlags) else none

def ASN1Identifier.BOOLEAN : ASN1Identifier := ⟨0x01, .universal⟩
def ASN1Identifier.INTEGER : ASN1Identifier := ⟨0x02, .universal⟩
def ASN1Identifier.BIT_STRING : ASN1Identifier := ⟨0x03, .universal⟩
def ASN1Identifier.OCTET_STRING : ASN1Identifier := ⟨0x04, .universal⟩
def ASN1Identifier.NULL : ASN1Identifier := ⟨0x05, .universal⟩
def ASN1Identifier.OBJECT_IDENTIFIER : ASN1Identifier := ⟨0x06, .universal⟩
def ASN1Identifier.REAL : ASN1Identifier := ⟨0x09, .universal⟩
def ASN1Identifier.SEQUENCE : ASN1Identifier := ⟨0x10, .universal⟩
def ASN1Identifier.SET : ASN1Identifier := ⟨0x11, .universal⟩

/-- EncodingRules, from src/asn1.rs. -/
inductive EncodingRules where
  | basic
  | distinguished
deriving DecidableEq

/-- EncodingRules::indefinite_length_allowed. -/
def EncodingRules.indefiniteLengthAllowed : EncodingRules → Bool
  | .basic => true
  | .distinguished => false

/-- EncodingRules::non_minimal_encoded_lengths_allowed. -/
def EncodingRules.nonMinimalEncodedLengthsAllowed : EncodingRules → Bool
  | .basic => true
  | .distinguished => false

/-- minimal_octet_len, from src/asn1.rs: number of octets needed for a
`u64` value (`64 - leading_zeros` significant bits, rounded up to bytes).
For `v > 0` the number of significant bits is `Nat.log2 v + 1`. -/
def minimalOctetLen (v : Nat) : Nat :=
  if v = 0 then 1 else (Nat.log2 v + 1 + 7) / 8

/-- ParserNode, from src/asn1.rs. -/
structure ParserNode where
  identifier : ASN1Identifier
  depth : Nat
  isConstructed : Bool
  encodedBytes : List Nat
  dataBytes : Option (List Nat)
deriving DecidableEq

/-- ParserNode::is_end_marker. -/
def ParserNode.isEndMarker (n : ParserNode) : Bool :=
  n.identifier.tagClass == .universal && n.identifier.tagNumber == 0 &&
    !n.isConstructed && n.encodedBytes.length == 2 && n.encodedBytes == [0x00, 0x00]

/-- ASN1Length, from src/asn1.rs. -/
inductive ASN1Length where
  | indefinite
  | definite (n : Nat)
deriving DecidableEq

/-- read_asn1_discipline_uint, from src/asn1.rs: base-128 unsigned reader;
the accumulated value is kept in `u64` with checked arithmetic.  Returns the
value and the remaining bytes (the source also returns a byte count, which no
caller uses). -/
def readASN1DisciplineUint : List Nat → Nat → Except ParseFail (Nat × List Nat)
  | [], _ => .error (.err .truncatedASN1Field)
  | b :: rest, value =>
    let chunk := b &&& 0x7F
    if value * 128 + chunk ≥ u64Size then .error (.err .invalidASN1Object)
    else if b &&& 0x80 == 0 then .ok (value * 128 + chunk, rest)
    else readASN1DisciplineUint rest (value * 128 + chunk)

/-- The accumulation loop inside _read_asn1_length's long form: big-endian
fold of the length octets with `checked_mul(256)`; the following addition of a
byte cannot overflow once the multiplication did not. -/
def computeLongLength : List Nat → Nat → Except ParseFail Nat
  | [], acc => .ok acc
  | b :: rest, acc =>
    if acc * 256 ≥ u64Size then .error (.err .invalidASN1Object)
    else computeLongLength rest (acc * 256 + b)

/-- _read_asn1_length, from src/asn1.rs. -/
def readASN1Length (minimalEncoding : Bool) (data : List Nat) :
    Except ParseFail (ASN1Length × List Nat) :=
  match data with
  | [] => .error (.err .truncatedASN1Field)
  | firstByte :: rest =>
    if firstByte == 0x80 then .ok (.indefinite, rest)
    else if firstByte &&& 0x80 == 0x80 then
      let fieldLength := firstByte &&& 0x7F
      if rest.length < fieldLength then .error (.err .truncatedASN1Field)
      else
        match computeLongLength (rest.take fieldLength) 0 with
        | .error e => .error e
        | .ok len =>
          if minimalEncoding then
            if len < 128 then .error (.err .unsupportedFieldLength)
            else if fieldLength > minimalOctetLen len then
              .error (.err .unsupportedFieldLength)
            else .ok (.definite len, rest.drop fieldLength)
          else .ok (.definite len, rest.drop fieldLength)
    else .ok (.definite firstByte, rest)

def MAXIMUM_NODE_DEPTH : Nat := 50

/-- Selector for the three mutually recursive parsing routines of
ParseResult::_parse_node (src/asn1.rs): `node d` is the body of `_parse_node`
at depth `d`; `children d` is the `while !check_sub.is_empty()` loop over a
definite-length constructed node's content, parsing children at depth `d`;
`indef d` is the end-of-content loop of the indefinite-length case for a
parent at depth `d` (children are parsed at depth `d + 1`). -/
inductive PCmd where
  | node (depth : Nat)
  | children (depth : Nat)
  | indef (depth : Nat)
deriving DecidableEq

/-- ParseResult::_parse_node (src/asn1.rs), as a fuel-indexed function.
All three loops of the source are driven by the same fuel counter; the fuel
given by the entry point (`input length + 1`) is always sufficient, so
`.fuelOut` is unreachable from the public entry points. -/
def parseGo (rules : EncodingRules) :
    Nat → PCmd → List Nat → List ParserNode →
      Except ParseFail (List Nat × List ParserNode)
  | 0, _, _, _ => .error .fuelOut
  | fuel + 1, .node depth, data, nodes =>
    if depth > MAXIMUM_NODE_DEPTH then .error (.err .invalidASN1Object)
    else
      match data with
      | [] => .error (.err .truncatedASN1Field)
      | raw :: rest =>
        let idStep : Except ParseFail (ASN1Identifier × List Nat) :=
          if raw &&& 0x1F == 0x1F then
            match readASN1DisciplineUint rest 0 with
            | .error e => .error e
            | .ok (tagNumber, rest1) =>
              if tagNumber < 0x1F then .error (.err .invalidASN1Object)
              else .ok (⟨tagNumber, TagClass.fromTopByte raw⟩, rest1)
          else .ok (ASN1Identifier.fromShortIdentifier raw, rest)
        match idStep with
        | .error e => .error e
        | .ok (identifier, rest1) =>
          match readASN1Length (!rules.nonMinimalEncodedLengthsAllowed) rest1 with
          | .error e => .error e
          | .ok (.definite n, rest2) =>
            if rest2.length < n then .error (.err .truncatedASN1Field)
            else
              let subData := rest2.take n
              let dataAfter := rest2.drop n
              let encoded := data.take (data.length - dataAfter.length)
              if raw &&& 0x20 != 0 then
                match parseGo rules fuel (.children (depth + 1)) subData
                    (nodes ++ [⟨identifier, depth, true, encoded, none⟩]) with
                | .error e => .error e
                | .ok (_, nodes1) => .ok (dataAfter, nodes1)
              else
                .ok (dataAfter, nodes ++ [⟨identifier, depth, false, encoded, some subData⟩])
          | .ok (.indefinite, rest2) =>
            if !rules.indefiniteLengthAllowed then .error (.err .unsupportedFieldLength)
            else if raw &&& 0x20 == 0 then .error (.err .unsupportedFieldLength)
            else
              let lastIndex := nodes.length
              match parseGo rules fuel (.indef depth) rest2
                  (nodes ++ [⟨identifier, depth, true, [], none⟩]) with
              | .error e => .error e
              | .ok (dataAfter, nodes1) =>
                let encoded := data.take (data.length - dataAfter.length)
                match nodes1.get? lastIndex with
                | none => .error .outOfBounds
                | some nd =>
                  .ok (dataAfter, nodes1.set lastIndex { nd with encodedBytes := encoded })
  | fuel + 1, .children depth, data, nodes =>
    match data with
    | [] => .ok ([], nodes)
    | _ :: _ =>
      match parseGo rules fuel (.node depth) data nodes with
      | .error e => .error e
      | .ok (data1, nodes1) => parseGo rules fuel (.children depth) data1 nodes1
  | fuel + 1, .indef depth, data, nodes =>
    match data with
    | [] => .error (.err .truncatedASN1Field)
    | _ :: _ =>
      match parseGo rules fuel (.node (depth + 1)) data nodes with
      | .error e => .error e
      | .ok (data1, nodes1) =>
        match nodes1.getLast? with
        | some nd =>
          if nd.isEndMarker then .ok (data1, nodes1.dropLast)
          else parseGo rules fuel (.indef depth) data1 nodes1
        | none => parseGo rules fuel (.indef depth) data1 nodes1

/-- ParseResult::parse (src/asn1.rs): parse one node at depth 1, then require
that the input is fully consumed. -/
def parseResultParse (data : List Nat) (rules : EncodingRules) :
    Except ParseFail (List ParserNode) :=
  match parseGo rules (data.length + 1) (.node 1) data [] with
  | .error e => .error e
  | .ok (remaining, nodes) =>
    match remaining with
    | [] => .ok nodes
    | _ :: _ => .error (.err .invalidASN1Object)

/-- Content of a logical node (src/asn1.rs `Content`): a constructed node's
content is an `ASN1NodeCollection`, i.e. a shared handle to the flat node
vector plus an index range. -/
inductive NodeContent where
  | primitive (bytes : List Nat)
  | constructed (nodes : List ParserNode) (start stop : Nat)
deriving DecidableEq

/-- ASN1Node, from src/asn1.rs. -/
structure ASN1Node where
  identifier : ASN1Identifier
  content : NodeContent
  encodedBytes : List Nat
deriving DecidableEq

/-- ASN1NodeCollectionIterator, from src/asn1.rs (the `_depth` field is unused
by the iterator and omitted). -/
structure NodeIter where
  nodes : List ParserNode
  start : Nat
  stop : Nat
deriving DecidableEq

/-- The `while` loop of ASN1NodeCollectionIterator::subtree_end_index,
recursing on the remaining range size.  The `none` arm would be an
out-of-bounds panic in the source; it is unreachable for iterators built by
the parser (`stop ≤ nodes.length`). -/
def searchEnd (nodes : List ParserNode) (nodeDepth : Nat) :
    Nat → Nat → Nat
  | 0, searchIndex => searchIndex
  | remaining + 1, searchIndex =>
    match nodes.get? searchIndex with
    | some nd =>
      if nd.depth ≤ nodeDepth then searchIndex
      else searchEnd nodes nodeDepth remaining (searchIndex + 1)
    | none => searchIndex

/-- ASN1NodeCollectionIterator::subtree_end_index. -/
def NodeIter.subtreeEndIndex (it : NodeIter) (index : Nat) : Nat :=
  match it.nodes.get? index with
  | some nd => searchEnd it.nodes nd.depth (it.stop - (index + 1)) (index + 1)
  | none => index + 1

/-- ASN1NodeCollectionIterator::clone_node.  The `none` arms model the
source's panics (index out of bounds / `unwrap` of `data_bytes`), both
unreachable for parser-built iterators. -/
def NodeIter.cloneNode (it : NodeIter) (index endIndex : Nat) : Option ASN1Node :=
  match it.nodes.get? index with
  | none => none
  | some node =>
    if node.isConstructed then
      some ⟨node.identifier, .constructed it.nodes (index + 1) endIndex, node.encodedBytes⟩
    else
      match node.dataBytes with
      | some db => some ⟨node.identifier, .primitive db, node.encodedBytes⟩
      | none => none

/-- ASN1NodeCollectionIterator::peek. -/
def NodeIter.peek (it : NodeIter) : Option ASN1Node :=
  if it.start ≥ it.stop then none
  else it.cloneNode it.start (it.subtreeEndIndex it.start)

/-- Iterator::next for ASN1NodeCollectionIterator. -/
def NodeIter.next (it : NodeIter) : Option (ASN1Node × NodeIter) :=
  if it.start ≥ it.stop then none
  else
    match it.cloneNode it.start (it.subtreeEndIndex it.start) with
    | none => none
    | some nd => some (nd, { it with start := it.subtreeEndIndex it.start })

/-- The `find` inside der::parse's single-root check: first index `i ≥ 1`
whose node depth is `≤ root_depth`. -/
def derEndIndexLoop (rootDepth : Nat) : List ParserNode → Nat → Option Nat
  | [], _ => none
  | x :: rest, i =>
    if x.depth ≤ rootDepth then some i else derEndIndexLoop rootDepth rest (i + 1)

/-- der::parse, from src/der.rs: DER parse with a single-root check. -/
def derParse (data : List Nat) : Except ParseFail ASN1Node :=
  match parseResultParse data .distinguished with
  | .error e => .error e
  | .ok ns =>
    match ns with
    | [] => .error (.err .invalidASN1Object)
    | first :: tail =>
      let endIndex := (derEndIndexLoop first.depth tail 1).getD ns.length
      if endIndex ≠ ns.length then .error (.err .invalidASN1Object)
      else if first.isConstructed then
        .ok ⟨first.identifier, .constructed ns 1 endIndex, first.encodedBytes⟩
      else
        match first.dataBytes with
        | some db => .ok ⟨first.identifier, .primitive db, first.encodedBytes⟩
        | none => .error .outOfBounds

/-- ber::parse, from src/ber.rs.  The source indexes `nodes[0]` without a
check and calls `.unwrap()` on a primitive root's `data_bytes`; both panics
are modelled by `.error .outOfBounds`. -/
def berParse (data : List Nat) : Except ParseFail ASN1Node :=
  match parseResultParse data .basic with
  | .error e => .error e
  | .ok ns =>
    match ns with
    | [] => .error .outOfBounds
    | first :: _ =>
      if first.isConstructed then
        .ok ⟨first.identifier, .constructed ns 1 ns.length, first.encodedBytes⟩
      else
        match first.dataBytes with
        | some db => .ok ⟨first.identifier, .primitive db, first.encodedBytes⟩
        | none => .error .outOfBounds

/-- der::sequence, from src/der.rs: requires the given identifier and a
constructed node, runs the builder on the child cursor, and rejects
unconsumed child nodes. -/
def derSequence {α : Type} (node : ASN1Node) (identifier : ASN1Identifier)
    (builder : NodeIter → Except ParseFail (α × NodeIter)) : Except ParseFail α :=
  if node.identifier ≠ identifier then .error (.err .unexpectedFieldType)
  else
    match node.content with
    | .constructed ns start stop =>
      match builder ⟨ns, start, stop⟩ with
      | .error e => .error e
      | .ok (result, it) =>
        match it.next with
        | some _ => .error (.err .invalidASN1Object)
        | none => .ok result
    | .primitive _ => .error (.err .unexpectedFieldType)

/-- BigInt::from_signed_bytes_be: big-endian two's-complement decoding. -/
def fromSignedBytesBE (bs : List Nat) : Int :=
  let raw : Nat := bs.foldl (fun acc b => acc * 256 + b) 0
  match bs with
  | [] => 0
  | b :: _ =>
    if b ≥ 128 then (raw : Int) - ((2 ^ (8 * bs.length) : Nat) : Int)
    else (raw : Int)

/-- ASN1Integer::from_der_node_with_identifier
(src/asn1_types/integer.rs): DER requires at least one content byte and a
minimal two's-complement encoding. -/
def asn1IntegerFromDerNodeWithIdentifier (node : ASN1Node)
    (identifier : ASN1Identifier) : Except ParseFail Int :=
  if node.identifier ≠ identifier then .error (.err .unexpectedFieldType)
  else
    match node.content with
    | .primitive bytes =>
      match bytes with
      | [] => .error (.err .invalidASN1Object)
      | [_] => .ok (fromSignedBytesBE bytes)
      | b0 :: b1 :: _ =>
        if b0 == 0x00 && b1 &&& 0x80 == 0 then .error (.err .invalidASN1IntegerEncoding)
        else if b0 == 0xFF && b1 &&& 0x80 == 0x80 then
          .error (.err .invalidASN1IntegerEncoding)
        else .ok (fromSignedBytesBE bytes)
    | .constructed _ _ _ => .error (.err .unexpectedFieldType)

/-- ASN1Integer::from_ber_node_with_identifier
(src/asn1_types/integer.rs): BER allows redundant leading bytes. -/
def asn1IntegerFromBerNodeWithIdentifier (node : ASN1Node)
    (identifier : ASN1Identifier) : Except ParseFail Int :=
  if node.identifier ≠ identifier then .error (.err .unexpectedFieldType)
  else
    match node.content with
    | .primitive bytes =>
      match bytes with
      | [] => .error (.err .invalidASN1Object)
      | _ :: _ => .ok (fromSignedBytesBE bytes)
    | .constructed _ _ _ => .error (.err .unexpectedFieldType)

/-- ASN1Integer::from_der_node composed with der::parse
(DERParseable::from_der_bytes). -/
def asn1IntegerFromDerBytes (data : List Nat) : Except ParseFail Int :=
  match derParse data with
  | .error e => .error e
  | .ok node => asn1IntegerFromDerNodeWithIdentifier node ASN1Identifier.INTEGER

/-- ASN1Integer::from_ber_node composed with ber::parse. -/
def asn1IntegerFromBerBytes (data : List Nat) : Except ParseFail Int :=
  match berParse data with
  | .error e => .error e
  | .ok node => asn1IntegerFromBerNodeWithIdentifier node ASN1Identifier.INTEGER

/-- ASN1Boolean::from_der_node_with_identifier
(src/asn1_types/boolean.rs): content must be exactly one byte, `0x00` or
`0xFF` under DER. -/
def asn1BooleanFromDerNodeWithIdentifier (node : ASN1Node)
    (identifier : ASN1Identifier) : Except ParseFail Bool :=
  if node.identifier ≠ identifier then .error (.err .unexpectedFieldType)
  else
    match node.content with
    | .primitive bytes =>
      match bytes with
      | [b] =>
        if b == 0x00 then .ok false
        else if b == 0xFF then .ok true
        else .error (.err .invalidASN1Object)
      | _ => .error (.err .invalidASN1Object)
    | .constructed _ _ _ => .error (.err .unexpectedFieldType)

/-- The `impl DERParseable for Option<T>` body of from_der_iterator
(src/der.rs): peek first; absent when the cursor is exhausted or the next
node's identifier differs from the inner type's default identifier; only on
a match consume (`iter.next().expect(..)`, modelled by `.outOfBounds` in the
unreachable arm) and decode. -/
def optionFromDerIterator {α : Type} (defaultIdentifier : ASN1Identifier)
    (fromDerNode : ASN1Node → Except ParseFail α) (iter : NodeIter) :
    Except ParseFail (Option α × NodeIter) :=
  match iter.peek with
  | none => .ok (none, iter)
  | some node =>
    if node.identifier == defaultIdentifier then
      match iter.next with
      | none => .error .outOfBounds
      | some (node1, iter1) =>
        match fromDerNode node1 with
        | .error e => .error e
        | .ok v => .ok (some v, iter1)
    else .ok (none, iter)

/-- The `to_i64` bridge of the fixed-width integer impls (src/der.rs):
range-check the arbitrary-precision value into `i64`. -/
def i64FromDerNode (node : ASN1Node) : Except ParseFail Int :=
  match asn1IntegerFromDerNodeWithIdentifier node ASN1Identifier.INTEGER with
  | .error e => .error e
  | .ok v =>
    if -(2 ^ 63) ≤ v ∧ v < 2 ^ 63 then .ok v else .error (.err .valueOutOfRange)

/-- DERParseable::from_der_iterator's default body (src/der.rs) for `i64`. -/
def i64FromDerIterator (iter : NodeIter) : Except ParseFail (Int × NodeIter) :=
  match iter.next with
  | none => .error (.err .invalidASN1Object)
  | some (node, iter1) =>
    match i64FromDerNode node with
    | .error e => .error e
    | .ok v => .ok (v, iter1)

/-- The schema `{i: INTEGER, b: OPTIONAL BOOLEAN}` decoded from a SEQUENCE,
exactly as in the source's own test (`test_option_absent_and_present` in
src/der.rs): der::parse, then der::sequence with an `i64` field followed by
an `Option<bool>` field. -/
def parseIntOptBoolSchema (data : List Nat) : Except ParseFail (Int × Option Bool) :=
  match derParse data with
  | .error e => .error e
  | .ok node =>
    derSequence node ASN1Identifier.SEQUENCE (fun iter =>
      match i64FromDerIterator iter with
      | .error e => .error e
      | .ok (i, iter1) =>
        match optionFromDerIterator ASN1Identifier.BOOLEAN
            (fun nd => asn1BooleanFromDerNodeWithIdentifier nd ASN1Identifier.BOOLEAN)
            iter1 with
        | .error e => .error e
        | .ok (b, iter2) => .ok ((i, b), iter2))

/-- Continuation-bit marking shared by the two VLQ writers: set `0x80` on
every byte except the last of a big-endian group list. -/
def markCont : List Nat → List Nat
  | [] => []
  | [x] => [x]
  | x :: y :: rest => (x ||| 0x80) :: markCont (y :: rest)

/-- The bounded group-collection loop of write_oid_subidentifier
(src/asn1_types/object_identifier.rs): up to `iters` low-to-high 7-bit
groups; the Bool reports whether the value was exhausted (the source's
`finished` flag). -/
def vlqLowGroups : Nat → Nat → List Nat × Bool
  | 0, _ => ([], false)
  | iters + 1, v =>
    let g := v &&& 0x7F
    let v1 := v >>> 7
    if v1 == 0 then ([g], true)
    else
      let (s, fin) := vlqLowGroups iters v1
      (g :: s, fin)

/-- write_oid_subidentifier (src/asn1_types/object_identifier.rs).  The
source's `assert!(finished)` panic (more than 11 VLQ bytes needed; impossible
for `u64` values) is modelled by `.error .outOfBounds`. -/
def writeOidSubidentifier (v : Nat) : Except ParseFail (List Nat) :=
  if v == 0 then .ok [0]
  else
    match vlqLowGroups 11 v with
    | (stack, finished) =>
      if finished then .ok (markCont stack.reverse)
      else .error .outOfBounds

/-- read_oid_subidentifier's loop (src/asn1_types/object_identifier.rs):
base-128 with a canonicality check (no leading `0x80` byte) and `u64`
overflow checks. -/
def readOidSubLoop : List Nat → Nat → Bool → Except ParseFail (Nat × List Nat)
  | [], _, _ => .error (.err .truncatedASN1Field)
  | b :: rest, value, firstByte =>
    if firstByte && b == 0x80 then .error (.err .invalidASN1Object)
    else
      let chunk := b &&& 0x7F
      if value * 128 + chunk ≥ u64Size then .error (.err .invalidASN1Object)
      else if b &&& 0x80 == 0 then .ok (value * 128 + chunk, rest)
      else readOidSubLoop rest (value * 128 + chunk) false

/-- read_oid_subidentifier (src/asn1_types/object_identifier.rs). -/
def readOidSubidentifier (data : List Nat) : Except ParseFail (Nat × List Nat) :=
  readOidSubLoop data 0 true

/-- The loop over `components[2..]` in ASN1ObjectIdentifier::new. -/
def writeOidComponentsLoop : List Nat → List Nat → Except ParseFail (List Nat)
  | [], buf => .ok buf
  | c :: rest, buf =>
    match writeOidSubidentifier c with
    | .error e => .error e
    | .ok bs => writeOidComponentsLoop rest (buf ++ bs)

/-- ASN1ObjectIdentifier::new (src/asn1_types/object_identifier.rs),
returning the encoded content bytes.  Components are `u64`; the addition
`first * 40 + second` is `u64` arithmetic and wraps (release mode), modelled
by the `% u64Size`. -/
def asn1ObjectIdentifierNew (components : List Nat) : Except ParseFail (List Nat) :=
  match components with
  | [] => .error (.err .tooFewOIDComponents)
  | [_] => .error (.err .tooFewOIDComponents)
  | first :: second :: rest =>
    if first > 2 then .error (.err .invalidASN1Object)
    else if first < 2 ∧ second > 39 then .error (.err .invalidASN1Object)
    else
      match writeOidSubidentifier ((first * 40 + second) % u64Size) with
      | .error e => .error e
      | .ok buf0 => writeOidComponentsLoop rest buf0

/-- The `while !data.is_empty()` loop of ASN1ObjectIdentifier::oid_components,
with the source's progress guard (error when a read consumed nothing); the
fuel supplied by `oidComponents` is always sufficient because each successful
read consumes at least one byte. -/
def oidComponentsLoop : Nat → List Nat → List Nat → Except ParseFail (List Nat)
  | 0, _, _ => .error .fuelOut
  | _ + 1, [], acc => .ok acc
  | f + 1, b :: rest, acc =>
    match readOidSubidentifier (b :: rest) with
    | .error e => .error e
    | .ok (v, rest1) =>
      if rest1.length == (b :: rest).length then .error (.err .invalidASN1Object)
      else oidComponentsLoop f rest1 (acc ++ [v])

/-- ASN1ObjectIdentifier::oid_components
(src/asn1_types/object_identifier.rs): the first sub-identifier `v` is split
as `(v / 40, v % 40)` — with no special case for a first component of 2. -/
def oidComponents (bytes : List Nat) : Except ParseFail (List Nat) :=
  match bytes with
  | [] => .error (.err .invalidASN1Object)
  | _ :: _ =>
    match readOidSubidentifier bytes with
    | .error e => .error e
    | .ok (firstVal, rest) =>
      if rest.length == bytes.length then .error (.err .invalidASN1Object)
      else oidComponentsLoop (rest.length + 1) rest [firstVal / 40, firstVal % 40]

/-- ASN1ObjectIdentifier::new followed by oid_components: the round-trip of
claim C2. -/
def oidRoundTrip (components : List Nat) : Except ParseFail (List Nat) :=
  match asn1ObjectIdentifierNew components with
  | .error e => .error e
  | .ok bytes => oidComponents bytes

/-- write_asn1_discipline_uint (src/der.rs): base-128 encoding of a tag
number.  The source loops until the value is exhausted; for the `u64` domain
at most 10 groups arise, so 10 bounded iterations are equivalent. -/
def writeAsn1DisciplineUint (n : Nat) : List Nat :=
  if n == 0 then [0]
  else
    match vlqLowGroups 10 n with
    | (stack, _) => markCont stack.reverse

/-- The byte-collection loop of encode_length (src/der.rs), little-endian;
for the `usize` domain at most 8 groups arise. -/
def leBytes : Nat → Nat → List Nat
  | 0, _ => []
  | f + 1, l => if l == 0 then [] else (l &&& 0xFF) :: leBytes f (l >>> 8)

/-- encode_length (src/der.rs): short form for lengths `≤ 0x7F`, otherwise
long form with minimal big-endian octets. -/
def encodeLength (len : Nat) : List Nat :=
  if len ≤ 0x7F then [len]
  else
    let bytes := leBytes 10 len
    (0x80 + bytes.length) :: bytes.reverse

/-- IdentfierWriter::write_identifier (src/der.rs). -/
def writeIdentifier (identifier : ASN1Identifier) (constructed : Bool) : List Nat :=
  match identifier.shortForm with
  | some short => [if constructed then short ||| 0x20 else short]
  | none =>
    let topByte := 0x1F ||| (if constructed then 0x20 else 0) |||
      identifier.tagClass.topByteFlags
    topByte :: writeAsn1DisciplineUint identifier.tagNumber

/-- Serializer::append_node (src/der.rs): identifier, then length, then
content, appended to the buffer. -/
def appendNode (buf : List Nat) (identifier : ASN1Identifier) (constructed : Bool)
    (content : List Nat) : List Nat :=
  buf ++ writeIdentifier identifier constructed ++ encodeLength content.length ++ content

/-- Serializer::append_primitive_node (src/der.rs), with the serializer's
buffer made explicit: the content writer runs to completion on a fresh
temporary buffer first; on error the serializer's buffer is returned
untouched together with the error, mirroring the `?` before `append_node`. -/
def appendPrimitiveNode (buf : List Nat) (identifier : ASN1Identifier)
    (contentWriter : List Nat → Except ParseFail (List Nat)) :
    List Nat × Option ParseFail :=
  match contentWriter [] with
  | .error e => (buf, some e)
  | .ok content => (appendNode buf identifier false content, none)

/-- f64::to_bits classification: value compares equal to 0.0 exactly when
all bits except the sign are clear. -/
def f64IsZero (bits : Nat) : Bool := bits &&& 0x7FFFFFFFFFFFFFFF == 0

/-- f64::is_infinite on the IEEE 754 bit pattern. -/
def f64IsInfinite (bits : Nat) : Bool :=
  bits &&& 0x7FFFFFFFFFFFFFFF == 0x7FF0000000000000

/-- f64::is_nan on the IEEE 754 bit pattern: exponent all ones and a
non-zero mantissa. -/
def f64IsNan (bits : Nat) : Bool :=
  (bits >>> 52) &&& 0x7FF == 0x7FF && bits &&& 0xFFFFFFFFFFFFF != 0

/-- f64::is_sign_positive on the IEEE 754 bit pattern. -/
def f64IsSignPositive (bits : Nat) : Bool := bits >>> 63 == 0

/-- The trailing-zero trim of the mantissa bytes in ASN1Real::serialize
(`last_nonzero` stays at least 0, so at least one byte is kept). -/
def takeThroughLastNonzero (l : List Nat) : List Nat :=
  let r := (l.reverse.dropWhile (fun b => b == 0)).reverse
  if r.isEmpty then l.take 1 else r

/-- `e as u16` bit pattern of an `i16` value. -/
def i16AsU16 (e : Int) : Nat := (e % 65536).toNat

/-- The content-writer closure of `impl DERSerializable for ASN1Real`
(src/asn1_types/real.rs), over the IEEE 754 bit pattern of the `f64` (the
closure only inspects the value through `== 0.0`, `is_infinite`,
`is_sign_positive`, `is_nan` and `to_bits`, so the bit pattern determines it
completely). -/
def realContentWriter (bits : Nat) (buf : List Nat) : Except ParseFail (List Nat) :=
  if f64IsZero bits then .ok buf
  else if f64IsInfinite bits then
    .ok (buf ++ [if f64IsSignPositive bits then 0x40 else 0x41])
  else if f64IsNan bits then .error (.err .invalidASN1Object)
  else
    let sign := (bits >>> 63) &&& 1
    let exponent : Int := (((bits >>> 52) &&& 0x7FF : Nat) : Int) - 1023
    let mantissa := bits &&& 0xFFFFFFFFFFFFF
    let buf1 := buf ++ [0x80 ||| (sign <<< 6)]
    let buf2 :=
      if -128 ≤ exponent ∧ exponent ≤ 127 then buf1 ++ [(exponent % 256).toNat]
      else buf1 ++ [(i16AsU16 exponent >>> 8) &&& 0xFF, i16AsU16 exponent &&& 0xFF]
    let mantissaBytes := [(mantissa >>> 56) &&& 0xFF, (mantissa >>> 48) &&& 0xFF,
      (mantissa >>> 40) &&& 0xFF, (mantissa >>> 32) &&& 0xFF, (mantissa >>> 24) &&& 0xFF,
      (mantissa >>> 16) &&& 0xFF, (mantissa >>> 8) &&& 0xFF, mantissa &&& 0xFF]
    .ok (buf2 ++ takeThroughLastNonzero mantissaBytes)

/-- `impl DERSerializable for ASN1Real`: append_primitive_node with the REAL
identifier and the content writer above, with the serializer buffer explicit. -/
def asn1RealSerialize (bits : Nat) (buf : List Nat) : List Nat × Option ParseFail :=
  appendPrimitiveNode buf ASN1Identifier.REAL (realContentWriter bits)

/-- Big-endian base-128 groups of a value (specification helper for the VLQ
round-trip proofs; the bounded writer loops of the source build the same list
bottom-up). -/
def beGroups (v : Nat) : List Nat :=
  if v < 128 then [v] else beGroups (v / 128) ++ [v % 128]
termination_by v
decreasing_by exact Nat.div_lt_self (by omega) (by omega)

/-- Big-endian base-128 value of a group list, folded from an accumulator
(the shape of the read loops' accumulation). -/
def beVal (a : Nat) (gs : List Nat) : Nat := gs.foldl (fun x g => x * 128 + g) a

/-- `n` NULL items `05 00`, the body of the node-count test input
(tests/resource_exhaustion.rs builds such a blob with `n = 100001`). -/
def nullItems : Nat → List Nat
  | 0 => []
  | n + 1 => 0x05 :: 0x00 :: nullItems n

/-- The node-count test input: an indefinite-length SEQUENCE of `n` NULLs. -/
def nodeCountInput (n : Nat) : List Nat :=
  0x30 :: 0x80 :: (nullItems n ++ [0x00, 0x00])

/-- The parsed NULL child node of the node-count input. -/
def nullChildNode : ParserNode := ⟨⟨5, .universal⟩, 2, false, [0x05, 0x00], some []⟩

/-- The parsed root SEQUENCE node of `nodeCountInput n`. -/
def nodeCountRoot (n : Nat) : ParserNode :=
  ⟨⟨16, .universal⟩, 1, true, nodeCountInput n, none⟩

/-- `k` indefinite-length SEQUENCE headers `30 80`. -/
def indefHeaders : Nat → List Nat
  | 0 => []
  | k + 1 => 0x30 :: 0x80 :: indefHeaders k

/-- `k` end-of-content markers `00 00`. -/
def eocMarkers : Nat → List Nat
  | 0 => []
  | k + 1 => 0x00 :: 0x00 :: eocMarkers k

/-- `k` nested indefinite-length SEQUENCEs, as in the source's own
recursion-limit tests: `k` headers `30 80` then `k` markers `00 00`. -/
def nestedIndefSeq (k : Nat) : List Nat := indefHeaders k ++ eocMarkers k

/-- The node list produced by a successful nested-indefinite parse: `m`
constructed SEQUENCE nodes at depths `d, d + 1, …`, each with its backfilled
full encoding. -/
def nestNodes : Nat → Nat → List ParserNode
  | _, 0 => []
  | d, m + 1 =>
    ⟨⟨16, .universal⟩, d, true, indefHeaders (m + 1) ++ eocMarkers (m + 1), none⟩
      :: nestNodes (d + 1) m

/-- One step of the pre-order depth discipline: a successor node's depth
exceeds its predecessor's by at most one. -/
def depthStepOk (a b : ParserNode) : Prop := b.depth ≤ a.depth + 1

/-- Well-formedness of a parse result (claim C9): non-empty, root depth 1,
all depths within [1, 50], and the pre-order depth discipline between
consecutive nodes. -/
def nodesWellFormed (ns : List ParserNode) : Prop :=
  ns ≠ [] ∧ (∀ x, ns.head? = some x → x.depth = 1) ∧
    (∀ x ∈ ns, 1 ≤ x.depth ∧ x.depth ≤ MAXIMUM_NODE_DEPTH) ∧
    List.Chain' depthStepOk ns

/-- Induction invariant for the tree builder: shape of the node block
appended by one parsing step at depth `d` (all depths in `[d, 50]`, depth
discipline inside the block, the block head exactly at depth `d`, and every
primitive node carrying its data slice). -/
def parsedBlock (d : Nat) (ns : List ParserNode) : Prop :=
  (∀ x ∈ ns, d ≤ x.depth ∧ x.depth ≤ MAXIMUM_NODE_DEPTH ∧
    (x.isConstructed = false → x.dataBytes.isSome = true)) ∧
  List.Chain' depthStepOk ns ∧ (∀ x, ns.head? = some x → x.depth = d)

/-- The depth of the node block appended by one `parseGo` step. -/
def cmdBlockDepth : PCmd → Nat
  | .node d => d
  | .children d => d
  | .indef d => d + 1

def isNodeCmd : PCmd → Bool
  | .node _ => true
  | _ => false

def blockOut (dep : Nat) (b : Bool) (nodes : List ParserNode)
    (r : Except ParseFail (List Nat × List ParserNode)) : Prop :=
  (∀ rem ns1, r = .ok (rem, ns1) → ∃ new, ns1 = nodes ++ new ∧ parsedBlock dep new ∧
    (b = true → new ≠ [])) ∧ r ≠ .error .outOfBounds

/-! Shape invariant proved about `parseGo` for claim C9: any successful call
appends a `parsedBlock` to the incoming node list (non-empty for a `.node`
call), and the parser never takes the embedded panic arm `.outOfBounds`. -/

/-! ### Helper lemmas -/

/-- If peek returns a node, next returns the same node and advances the
cursor start to the subtree end index. -/
theorem nodeIterPeekNext (it : NodeIter) (nd : ASN1Node) (h : it.peek = some nd) :
    it.next = some (nd, { it with start := it.subtreeEndIndex it.start }) := by
  unfold NodeIter.peek at h
  unfold NodeIter.next
  by_cases hlt : it.start ≥ it.stop
  · simp [hlt] at h
  · simp [hlt] at h ⊢
    simp [h]

/-- Byte facts used by the VLQ proofs, each decided over the byte range. -/
theorem byteAnd7F : ∀ g < 128, g &&& 0x7F = g := by decide

theorem byteAnd80 : ∀ g < 128, g &&& 0x80 = 0 := by decide

theorem byteLor128 : ∀ g < 128, g ||| 128 = g + 128 := by decide

theorem bytePlus128And7F : ∀ g < 128, (g + 128) &&& 0x7F = g := by decide

theorem bytePlus128And80 : ∀ g < 128, (g + 128) &&& 0x80 = 128 := by decide

theorem beGroups_ne_nil (v : Nat) : beGroups v ≠ [] := by
  rw [beGroups]
  split <;> simp

theorem beGroups_cons_of_ge (v : Nat) (h : ¬ v < 128) :
    beGroups v = beGroups (v / 128) ++ [v % 128] := by
  conv_lhs => rw [beGroups]
  simp [h]

theorem beGroups_head_pos (v : Nat) (hv : 0 < v) :
    ∀ h, (beGroups v).head? = some h → 0 < h := by
  induction v using Nat.strong_induction_on with
  | _ v ih =>
    rw [beGroups]
    split
    · intro h hh
      simp at hh
      omega
    · intro h hh
      obtain ⟨x, xs, hxx⟩ := List.exists_cons_of_ne_nil (beGroups_ne_nil (v / 128))
      rw [hxx] at hh
      simp at hh
      have := ih (v / 128) (Nat.div_lt_self (by omega) (by omega)) (by omega) x
      rw [hxx] at this
      simp at this
      omega

theorem beGroups_lt (v : Nat) : ∀ g ∈ beGroups v, g < 128 := by
  induction v using Nat.strong_induction_on with
  | _ v ih =>
    rw [beGroups]
    split
    · intro g hg
      simp at hg
      omega
    · intro g hg
      simp at hg
      rcases hg with hg | hg
      · exact ih (v / 128) (Nat.div_lt_self (by omega) (by omega)) g hg
      · omega

theorem beVal_cons (a g : Nat) (gs : List Nat) :
    beVal a (g :: gs) = beVal (a * 128 + g) gs := rfl

theorem beVal_ge (gs : List Nat) : ∀ a, a ≤ beVal a gs := by
  induction gs with
  | nil => intro a; simp [beVal]
  | cons g gs ih =>
    intro a
    rw [beVal_cons]
    calc a ≤ a * 128 + g := by omega
    _ ≤ beVal (a * 128 + g) gs := ih _

theorem beVal_beGroups (v : Nat) :
    ∀ a, beVal a (beGroups v) = a * 128 ^ (beGroups v).length + v := by
  induction v using Nat.strong_induction_on with
  | _ v ih =>
    intro a
    rw [beGroups]
    split
    · simp [beVal]
    · rw [beVal]
      rw [List.foldl_append]
      have h1 : (beGroups (v / 128)).foldl (fun x g => x * 128 + g) a
          = beVal a (beGroups (v / 128)) := rfl
      rw [h1, ih (v / 128) (Nat.div_lt_self (by omega) (by omega)) a]
      simp [List.length_append]
      rw [pow_succ]
      have := Nat.div_add_mod v 128
      ring_nf
      omega

/-- The bounded writer loop agrees with the big-endian group list whenever
the iteration budget covers the value. -/
theorem vlq_eq_beGroups : ∀ k v, 0 < v → v < 128 ^ k →
    vlqLowGroups k v = ((beGroups v).reverse, true) := by
  intro k
  induction k with
  | zero => intro v hv hlt; simp at hlt; omega
  | succ k ih =>
    intro v hv hlt
    rw [vlqLowGroups]
    by_cases h128 : v < 128
    · have hsh : v >>> 7 = 0 := by
        rw [Nat.shiftRight_eq_div_pow]
        omega
      have hand : v &&& 0x7F = v := byteAnd7F v h128
      simp only [hsh, hand]
      rw [beGroups]
      simp [h128]
    · have hsh : v >>> 7 = v / 128 := by
        rw [Nat.shiftRight_eq_div_pow]
      have hand : v &&& 0x7F = v % 128 := by
        have hmask : (0x7F : Nat) = 2 ^ 7 - 1 := by norm_num
        rw [hmask, Nat.and_pow_two_sub_one_eq_mod]
      have hdiv : v / 128 ≠ 0 := by omega
      have hdivlt : v / 128 < 128 ^ k := by
        apply Nat.div_lt_of_lt_mul
        rw [← pow_succ']
        omega
      have hrec := ih (v / 128) (by omega) hdivlt
      simp only [hsh, hand]
      rw [if_neg (by simpa using hdiv)]
      rw [hrec, beGroups_cons_of_ge v h128]
      simp [List.reverse_append]

/-- Reading back a continuation-marked big-endian group list accumulates its
value and stops exactly after it. -/
theorem readMarked : ∀ gs : List Nat, ∀ a : Nat, ∀ flag : Bool, ∀ rest : List Nat,
    (∀ g ∈ gs, g < 128) → beVal a gs < u64Size →
    (flag = true → 2 ≤ gs.length → gs.head? ≠ some 0) →
    gs ≠ [] →
    readOidSubLoop (markCont gs ++ rest) a flag = .ok (beVal a gs, rest) := by
  intro gs
  induction gs with
  | nil => intro a flag rest _ _ _ hne; exact absurd rfl hne
  | cons g tl ih =>
    intro a flag rest hlt hval hhead _
    have hg : g < 128 := hlt g (by simp)
    cases tl with
    | nil =>
      rw [markCont]
      rw [List.cons_append, readOidSubLoop]
      have hne80 : ¬ (flag && g == 0x80) = true := by
        simp
        intro _
        omega
      rw [if_neg hne80]
      simp only [byteAnd7F g hg]
      have hv1 : beVal a [g] = a * 128 + g := by simp [beVal]
      rw [if_neg (by omega : ¬ a * 128 + g ≥ u64Size)]
      rw [if_pos (by simp [byteAnd80 g hg])]
      simp [hv1]
    | cons g2 tl2 =>
      rw [markCont]
      rw [List.cons_append, readOidSubLoop]
      rw [byteLor128 g hg]
      have hbound : a * 128 + g ≤ beVal a (g :: g2 :: tl2) := by
        rw [beVal_cons]
        exact beVal_ge _ _
      have hne80 : ¬ (flag && (g + 128) == 0x80) = true := by
        simp
        intro hflag
        have := hhead hflag (by simp)
        simp at this
        omega
      rw [if_neg hne80]
      simp only [bytePlus128And7F g hg]
      rw [if_neg (by omega : ¬ a * 128 + g ≥ u64Size)]
      rw [if_neg (by simp [bytePlus128And80 g hg])]
      rw [beVal_cons]
      exact ih (a * 128 + g) false rest (fun x hx => hlt x (by simp [hx]))
        (by rw [← beVal_cons]; exact hval) (by simp) (by simp)

/-- write_oid_subidentifier of any `u64` value succeeds, produces non-empty
bytes, and read_oid_subidentifier reads the value back from any
continuation. -/
theorem writeRead (v : Nat) (hv : v < u64Size) :
    ∃ bs : List Nat, bs ≠ [] ∧ writeOidSubidentifier v = .ok bs ∧
      ∀ rest : List Nat, readOidSubLoop (bs ++ rest) 0 true = .ok (v, rest) := by
  by_cases hz : v = 0
  · refine ⟨[0], by simp, by simp [writeOidSubidentifier, hz], ?_⟩
    intro rest
    rw [show ([0] ++ rest : List Nat) = 0 :: rest from by simp]
    rw [readOidSubLoop]
    simp [hz, u64Size]
  · have hvpos : 0 < v := by omega
    have hv11 : v < 128 ^ 11 := by
      calc v < u64Size := hv
      _ < 128 ^ 11 := by norm_num [u64Size]
    have hvlq := vlq_eq_beGroups 11 v hvpos hv11
    refine ⟨markCont (beGroups v), ?_, ?_, ?_⟩
    · cases hbe : beGroups v with
      | nil => exact absurd hbe (beGroups_ne_nil v)
      | cons x xs => cases xs <;> simp [markCont]
    · rw [writeOidSubidentifier]
      rw [if_neg (by simpa using hz)]
      rw [hvlq]
      simp
    · intro rest
      have hval : beVal 0 (beGroups v) = v := by
        rw [beVal_beGroups]
        simp
      rw [readMarked (beGroups v) 0 true rest (beGroups_lt v) (by rw [hval]; exact hv)
        ?_ (beGroups_ne_nil v), hval]
      intro _ _
      intro hcon
      have := beGroups_head_pos v hvpos 0 hcon
      omega

/-- The component-writing loop of ASN1ObjectIdentifier::new round-trips
against the component-reading loop of oid_components. -/
theorem writeLoopRead : ∀ cs buf : List Nat, (∀ c ∈ cs, c < u64Size) →
    ∃ tb : List Nat, writeOidComponentsLoop cs buf = .ok (buf ++ tb) ∧
      ∀ f : Nat, ∀ acc : List Nat, tb.length + 1 ≤ f →
        oidComponentsLoop f tb acc = .ok (acc ++ cs) := by
  intro cs
  induction cs with
  | nil =>
    intro buf _
    refine ⟨[], by simp [writeOidComponentsLoop], ?_⟩
    intro f acc hf
    match f, hf with
    | f + 1, _ => simp [oidComponentsLoop]
  | cons c cs ih =>
    intro buf hlt
    obtain ⟨bs, hbs_ne, hbs_w, hbs_r⟩ := writeRead c (hlt c (by simp))
    obtain ⟨tb, htb_w, htb_r⟩ := ih (buf ++ bs) (fun x hx => hlt x (by simp [hx]))
    refine ⟨bs ++ tb, ?_, ?_⟩
    · rw [writeOidComponentsLoop, hbs_w]
      show writeOidComponentsLoop cs (buf ++ bs) = _
      rw [htb_w, List.append_assoc]
    · intro f acc hf
      cases hbseq : bs with
      | nil => exact absurd hbseq hbs_ne
      | cons b bs' =>
        subst hbseq
        match f, hf with
        | f + 1, hf =>
          rw [List.cons_append, oidComponentsLoop]
          have hread : readOidSubidentifier (b :: (bs' ++ tb)) = .ok (c, tb) := by
            have := hbs_r tb
            rw [List.cons_append] at this
            exact this
          rw [hread]
          show (if (tb.length == (b :: (bs' ++ tb)).length) = true then
              Except.error (ParseFail.err ErrorCode.invalidASN1Object)
            else oidComponentsLoop f tb (acc ++ [c])) = _
          rw [if_neg (by simp only [beq_iff_eq, List.length_cons, List.length_append]; omega)]
          rw [htb_r f (acc ++ [c]) (by simp at hf; omega)]
          simp

/-! ### Claim theorems -/

/-- C2 counterexample: the claim's round-trip fails at the component list
`[2, 40]` — the constructor accepts it (`first = 2` exempts the `second ≤ 39`
check), encodes the first sub-identifier as `2 * 40 + 40 = 120`, and
`oid_components` decodes 120 by plain division as `[3, 0]`, not `[2, 40]`. -/
theorem c2_oid_roundtrip_counterexample :
    oidRoundTrip [2, 40] = .ok [3, 0] ∧ ([3, 0] : List Nat) ≠ [2, 40] :=
  ⟨by decide, by decide⟩

/-- C2 (amended): for every component list `[first, second, c₃, …, cₙ]` of
`u64` values with `n ≥ 2`, `first ∈ {0,1,2}`, and `second ≤ 39` (for every
`first`, including `first = 2` — the amendment the counterexample forces),
`ASN1ObjectIdentifier::new` followed by `oid_components` returns exactly the
original component list. -/
theorem c2_oid_roundtrip_amended (first second : Nat) (rest : List Nat)
    (h1 : first ≤ 2) (h2 : second ≤ 39) (hlt : ∀ c ∈ rest, c < u64Size) :
    oidRoundTrip (first :: second :: rest) = .ok (first :: second :: rest) := by
  have hv0 : first * 40 + second < u64Size := by
    have : first * 40 + second ≤ 119 := by omega
    simp [u64Size]
    omega
  obtain ⟨bs, hbs_ne, hbs_w, hbs_r⟩ := writeRead (first * 40 + second) hv0
  obtain ⟨tb, htb_w, htb_r⟩ := writeLoopRead rest bs hlt
  have hnew : asn1ObjectIdentifierNew (first :: second :: rest) = .ok (bs ++ tb) := by
    simp only [asn1ObjectIdentifierNew]
    rw [if_neg (by omega : ¬ first > 2)]
    rw [if_neg (by omega : ¬ (first < 2 ∧ second > 39))]
    rw [Nat.mod_eq_of_lt hv0, hbs_w]
    show writeOidComponentsLoop rest bs = _
    exact htb_w
  rw [oidRoundTrip, hnew]
  show oidComponents (bs ++ tb) = _
  cases hbseq : bs with
  | nil => exact absurd hbseq hbs_ne
  | cons b bs' =>
    subst hbseq
    rw [List.cons_append, oidComponents]
    have hread : readOidSubidentifier (b :: (bs' ++ tb)) = .ok (first * 40 + second, tb) := by
      have := hbs_r tb
      rw [List.cons_append] at this
      exact this
    rw [hread]
    show (if (tb.length == (b :: (bs' ++ tb)).length) = true then
        Except.error (ParseFail.err ErrorCode.invalidASN1Object)
      else oidComponentsLoop (tb.length + 1) tb
        [(first * 40 + second) / 40, (first * 40 + second) % 40]) = _
    rw [if_neg (by simp only [beq_iff_eq, List.length_cons, List.length_append]; omega)]
    have hdiv : (first * 40 + second) / 40 = first := by omega
    have hmod : (first * 40 + second) % 40 = second := by omega
    rw [hdiv, hmod]
    rw [htb_r (tb.length + 1) [first, second] (by omega)]
    simp

/-- Witness for the amended C2 at the spec's own example OID
1.2.840.113549.1.1.11. -/
theorem c2_oid_roundtrip_amended_witness :
    oidRoundTrip [1, 2, 840, 113549, 1, 1, 11] = .ok [1, 2, 840, 113549, 1, 1, 11] :=
  c2_oid_roundtrip_amended 1 2 [840, 113549, 1, 1, 11] (by decide) (by decide) (by decide)

/-- C4: an indefinite length (first length byte 0x80) is rejected under DER
with `UnsupportedFieldLength`; under BER it is rejected (with the same kind)
when the identifier's constructed flag is clear; and exhausting the input
inside the child loop of an indefinite-length constructed node, before an
end-of-content marker is seen, is a hard `TruncatedASN1Field` error — shown
both for the loop itself and end-to-end on `30 80 02 01 00`. -/
theorem c4_indefinite_length_rules :
    (∀ f d b : Nat, ∀ rest : List Nat, ∀ nodes : List ParserNode,
      d ≤ MAXIMUM_NODE_DEPTH → b &&& 0x1F ≠ 0x1F →
      parseGo .distinguished (f + 1) (.node d) (b :: 0x80 :: rest) nodes
        = .error (.err .unsupportedFieldLength)) ∧
    (∀ f d b : Nat, ∀ rest : List Nat, ∀ nodes : List ParserNode,
      d ≤ MAXIMUM_NODE_DEPTH → b &&& 0x1F ≠ 0x1F → b &&& 0x20 = 0 →
      parseGo .basic (f + 1) (.node d) (b :: 0x80 :: rest) nodes
        = .error (.err .unsupportedFieldLength)) ∧
    (∀ f d : Nat, ∀ nodes : List ParserNode,
      parseGo .basic (f + 1) (.indef d) [] nodes
        = .error (.err .truncatedASN1Field)) ∧
    parseResultParse [0x30, 0x80, 0x02, 0x01, 0x00] .basic
      = .error (.err .truncatedASN1Field) := by
  refine ⟨?_, ?_, ?_, by decide⟩
  · intro f d b rest nodes hd hb
    simp [parseGo, Nat.not_lt.2 hd, hb, readASN1Length,
      EncodingRules.nonMinimalEncodedLengthsAllowed, EncodingRules.indefiniteLengthAllowed]
  · intro f d b rest nodes hd hb hc
    simp [parseGo, Nat.not_lt.2 hd, hb, hc, readASN1Length,
      EncodingRules.nonMinimalEncodedLengthsAllowed, EncodingRules.indefiniteLengthAllowed]
  · intro f d nodes
    simp [parseGo]

/-- Witness for C4 at concrete inputs. -/
theorem c4_indefinite_length_rules_witness :
    parseGo .distinguished 1 (.node 1) [0x02, 0x80] [] = .error (.err .unsupportedFieldLength) ∧
    parseGo .basic 1 (.node 1) [0x02, 0x80] [] = .error (.err .unsupportedFieldLength) ∧
    parseGo .basic 1 (.indef 1) [] [] = .error (.err .truncatedASN1Field) :=
  ⟨c4_indefinite_length_rules.1 0 1 0x02 [] [] (by decide) (by decide),
   c4_indefinite_length_rules.2.1 0 1 0x02 [] [] (by decide) (by decide) (by decide),
   c4_indefinite_length_rules.2.2.1 0 1 []⟩

/-- C5: under DER (minimal encoding) the length reader rejects every long
form whose value is below 128 and every long form using more octets than the
minimum for its value, both with `UnsupportedFieldLength`; under BER the same
input is accepted with the same definite value.  Concretely, `02 81 01 00`
fails under DER with `UnsupportedFieldLength` and decodes under BER to the
INTEGER value 0. -/
theorem c5_length_minimality :
    (∀ firstByte v : Nat, ∀ rest : List Nat,
      firstByte &&& 0x80 = 0x80 → firstByte ≠ 0x80 →
      firstByte &&& 0x7F ≤ rest.length →
      computeLongLength (rest.take (firstByte &&& 0x7F)) 0 = .ok v →
      (v < 128 → readASN1Length true (firstByte :: rest)
          = .error (.err .unsupportedFieldLength)) ∧
      (minimalOctetLen v < firstByte &&& 0x7F → readASN1Length true (firstByte :: rest)
          = .error (.err .unsupportedFieldLength)) ∧
      readASN1Length false (firstByte :: rest)
        = .ok (.definite v, rest.drop (firstByte &&& 0x7F))) ∧
    parseResultParse [0x02, 0x81, 0x01, 0x00] .distinguished
      = .error (.err .unsupportedFieldLength) ∧
    asn1IntegerFromBerBytes [0x02, 0x81, 0x01, 0x00] = .ok 0 := by
  refine ⟨?_, by decide, by decide⟩
  intro firstByte v rest hlong hne hk hv
  refine ⟨?_, ?_, ?_⟩
  · intro hlt
    simp [readASN1Length, hne, hlong, Nat.not_lt.2 hk, hv, hlt]
  · intro hgt
    by_cases hlt : v < 128
    · simp [readASN1Length, hne, hlong, Nat.not_lt.2 hk, hv, hlt]
    · simp [readASN1Length, hne, hlong, Nat.not_lt.2 hk, hv, hlt, hgt]
  · simp [readASN1Length, hne, hlong, Nat.not_lt.2 hk, hv]

/-- Witness for C5 at the input `81 01` (long form, value 1 < 128): rejected
with minimal encoding, accepted without. -/
theorem c5_length_minimality_witness :
    readASN1Length true [0x81, 0x01] = .error (.err .unsupportedFieldLength) ∧
    readASN1Length false [0x81, 0x01] = .ok (.definite 1, []) :=
  ⟨((c5_length_minimality.1 0x81 1 [0x01] (by decide) (by decide) (by decide)
      (by decide)).1 (by decide)),
   ((c5_length_minimality.1 0x81 1 [0x01] (by decide) (by decide) (by decide)
      (by decide)).2.2)⟩

/-- C6: the DER INTEGER decoder requires at least one content byte and a
minimal two's-complement encoding (`InvalidASN1IntegerEncoding` when the
first content byte is 0x00 with the next high bit clear, or 0xFF with the
next high bit set); the BER INTEGER decoder accepts any non-empty primitive
content.  Concretely, `02 02 00 7F` fails under DER with
`InvalidASN1IntegerEncoding` and `02 01 7F` decodes to 127. -/
theorem c6_integer_minimality :
    (∀ identifier : ASN1Identifier, ∀ b1 : Nat, ∀ tl enc : List Nat,
      b1 &&& 0x80 = 0 →
      asn1IntegerFromDerNodeWithIdentifier
          ⟨identifier, .primitive (0x00 :: b1 :: tl), enc⟩ identifier
        = .error (.err .invalidASN1IntegerEncoding)) ∧
    (∀ identifier : ASN1Identifier, ∀ b1 : Nat, ∀ tl enc : List Nat,
      b1 &&& 0x80 = 0x80 →
      asn1IntegerFromDerNodeWithIdentifier
          ⟨identifier, .primitive (0xFF :: b1 :: tl), enc⟩ identifier
        = .error (.err .invalidASN1IntegerEncoding)) ∧
    (∀ identifier : ASN1Identifier, ∀ enc : List Nat,
      asn1IntegerFromDerNodeWithIdentifier ⟨identifier, .primitive [], enc⟩ identifier
        = .error (.err .invalidASN1Object)) ∧
    (∀ identifier : ASN1Identifier, ∀ b : Nat, ∀ bs enc : List Nat,
      asn1IntegerFromBerNodeWithIdentifier
          ⟨identifier, .primitive (b :: bs), enc⟩ identifier
        = .ok (fromSignedBytesBE (b :: bs))) ∧
    asn1IntegerFromDerBytes [0x02, 0x02, 0x00, 0x7F]
      = .error (.err .invalidASN1IntegerEncoding) ∧
    asn1IntegerFromDerBytes [0x02, 0x01, 0x7F] = .ok 127 := by
  refine ⟨?_, ?_, ?_, ?_, by decide, by decide⟩
  · intro identifier b1 tl enc h1
    simp [asn1IntegerFromDerNodeWithIdentifier, h1]
  · intro identifier b1 tl enc h1
    simp [asn1IntegerFromDerNodeWithIdentifier, h1]
  · intro identifier enc
    simp [asn1IntegerFromDerNodeWithIdentifier]
  · intro identifier b bs enc
    simp [asn1IntegerFromBerNodeWithIdentifier]

/-- Witness for C6 at concrete nodes. -/
theorem c6_integer_minimality_witness :
    asn1IntegerFromDerNodeWithIdentifier
        ⟨ASN1Identifier.INTEGER, .primitive [0x00, 0x7F], [0x02, 0x02, 0x00, 0x7F]⟩
        ASN1Identifier.INTEGER
      = .error (.err .invalidASN1IntegerEncoding) ∧
    asn1IntegerFromDerNodeWithIdentifier
        ⟨ASN1Identifier.INTEGER, .primitive [0xFF, 0x80], [0x02, 0x02, 0xFF, 0x80]⟩
        ASN1Identifier.INTEGER
      = .error (.err .invalidASN1IntegerEncoding) ∧
    asn1IntegerFromBerNodeWithIdentifier
        ⟨ASN1Identifier.INTEGER, .primitive [0x00, 0x7F], [0x02, 0x02, 0x00, 0x7F]⟩
        ASN1Identifier.INTEGER
      = .ok 127 :=
  ⟨c6_integer_minimality.1 ASN1Identifier.INTEGER 0x7F [] [0x02, 0x02, 0x00, 0x7F] (by decide),
   c6_integer_minimality.2.1 ASN1Identifier.INTEGER 0x80 [] [0x02, 0x02, 0xFF, 0x80] (by decide),
   by
    have h := c6_integer_minimality.2.2.2.1 ASN1Identifier.INTEGER 0x00 [0x7F]
      [0x02, 0x02, 0x00, 0x7F]
    rw [h]
    decide⟩

/-- C7: when the identifier's low five bits are all ones, a base-128
long-form tag number is read and any value below 31 is rejected with
`InvalidASN1Object`; concretely, `1F 1E 00` fails with `InvalidASN1Object`
and `1F 1F 00` parses successfully. -/
theorem c7_long_form_tag_number :
    (∀ rules : EncodingRules, ∀ f d b v : Nat, ∀ rest rest1 : List Nat,
      ∀ nodes : List ParserNode,
      d ≤ MAXIMUM_NODE_DEPTH → b &&& 0x1F = 0x1F →
      readASN1DisciplineUint rest 0 = .ok (v, rest1) → v < 0x1F →
      parseGo rules (f + 1) (.node d) (b :: rest) nodes
        = .error (.err .invalidASN1Object)) ∧
    parseResultParse [0x1F, 0x1E, 0x00] .distinguished
      = .error (.err .invalidASN1Object) ∧
    parseResultParse [0x1F, 0x1F, 0x00] .distinguished
      = .ok [⟨⟨31, .universal⟩, 1, false, [0x1F, 0x1F, 0x00], some []⟩] := by
  refine ⟨?_, by decide, by decide⟩
  intro rules f d b v rest rest1 nodes hd hb hread hv
  simp [parseGo, Nat.not_lt.2 hd, hb, hread, hv]

/-- Witness for C7 at the concrete long-form input `1F 1E 00`. -/
theorem c7_long_form_tag_number_witness :
    parseGo .basic 1 (.node 1) [0x1F, 0x1E, 0x00] [] = .error (.err .invalidASN1Object) :=
  c7_long_form_tag_number.1 .basic 0 1 0x1F 30 [0x1E, 0x00] [0x00] []
    (by decide) (by decide) (by decide) (by decide)

/-- C8: the OPTIONAL decoder peeks before consuming: with an exhausted
cursor it returns absent and leaves the cursor unchanged; when the next
node's identifier differs from the inner type's default identifier it
returns absent without consuming; on a match it consumes the node and
decodes it.  Concretely, `30 03 02 01 01` against
`{i: INTEGER, b: OPTIONAL BOOLEAN}` gives `(1, absent)` and
`30 06 02 01 01 01 01 FF` gives `(1, true)`. -/
theorem c8_optional_decoder :
    (∀ (α : Type) (defId : ASN1Identifier) (dec : ASN1Node → Except ParseFail α)
      (it : NodeIter), it.peek = none →
      optionFromDerIterator defId dec it = .ok (none, it)) ∧
    (∀ (α : Type) (defId : ASN1Identifier) (dec : ASN1Node → Except ParseFail α)
      (it : NodeIter) (nd : ASN1Node), it.peek = some nd → nd.identifier ≠ defId →
      optionFromDerIterator defId dec it = .ok (none, it)) ∧
    (∀ (α : Type) (defId : ASN1Identifier) (dec : ASN1Node → Except ParseFail α)
      (it : NodeIter) (nd : ASN1Node), it.peek = some nd → nd.identifier = defId →
      optionFromDerIterator defId dec it
        = match dec nd with
          | .error e => .error e
          | .ok v => .ok (some v, { it with start := it.subtreeEndIndex it.start })) ∧
    parseIntOptBoolSchema [0x30, 0x03, 0x02, 0x01, 0x01] = .ok (1, none) ∧
    parseIntOptBoolSchema [0x30, 0x06, 0x02, 0x01, 0x01, 0x01, 0x01, 0xFF]
      = .ok (1, some true) := by
  refine ⟨?_, ?_, ?_, by decide, by decide⟩
  · intro α defId dec it h
    simp [optionFromDerIterator, h]
  · intro α defId dec it nd h hid
    simp [optionFromDerIterator, h, hid]
  · intro α defId dec it nd h hid
    have hn := nodeIterPeekNext it nd h
    simp [optionFromDerIterator, h, hid, hn]

/-- Witness for C8 at concrete cursors over the parse of `30 03 02 01 01`. -/
theorem c8_optional_decoder_witness :
    optionFromDerIterator ASN1Identifier.BOOLEAN
        (fun nd => asn1BooleanFromDerNodeWithIdentifier nd ASN1Identifier.BOOLEAN)
        ⟨[⟨ASN1Identifier.INTEGER, 2, false, [0x02, 0x01, 0x01], some [0x01]⟩], 1, 1⟩
      = .ok (none, ⟨[⟨ASN1Identifier.INTEGER, 2, false, [0x02, 0x01, 0x01], some [0x01]⟩], 1, 1⟩) ∧
    optionFromDerIterator ASN1Identifier.BOOLEAN
        (fun nd => asn1BooleanFromDerNodeWithIdentifier nd ASN1Identifier.BOOLEAN)
        ⟨[⟨ASN1Identifier.INTEGER, 2, false, [0x02, 0x01, 0x01], some [0x01]⟩], 0, 1⟩
      = .ok (none, ⟨[⟨ASN1Identifier.INTEGER, 2, false, [0x02, 0x01, 0x01], some [0x01]⟩], 0, 1⟩) ∧
    optionFromDerIterator ASN1Identifier.BOOLEAN
        (fun nd => asn1BooleanFromDerNodeWithIdentifier nd ASN1Identifier.BOOLEAN)
        ⟨[⟨ASN1Identifier.BOOLEAN, 2, false, [0x01, 0x01, 0xFF], some [0xFF]⟩], 0, 1⟩
      = .ok (some true, ⟨[⟨ASN1Identifier.BOOLEAN, 2, false, [0x01, 0x01, 0xFF], some [0xFF]⟩], 1, 1⟩) :=
  ⟨c8_optional_decoder.1 Bool ASN1Identifier.BOOLEAN
      (fun nd => asn1BooleanFromDerNodeWithIdentifier nd ASN1Identifier.BOOLEAN)
      ⟨[⟨ASN1Identifier.INTEGER, 2, false, [0x02, 0x01, 0x01], some [0x01]⟩], 1, 1⟩ (by decide),
   c8_optional_decoder.2.1 Bool ASN1Identifier.BOOLEAN
      (fun nd => asn1BooleanFromDerNodeWithIdentifier nd ASN1Identifier.BOOLEAN)
      ⟨[⟨ASN1Identifier.INTEGER, 2, false, [0x02, 0x01, 0x01], some [0x01]⟩], 0, 1⟩
      ⟨ASN1Identifier.INTEGER, .primitive [0x01], [0x02, 0x01, 0x01]⟩ (by decide) (by decide),
   by
    have h := c8_optional_decoder.2.2.1 Bool ASN1Identifier.BOOLEAN
      (fun nd => asn1BooleanFromDerNodeWithIdentifier nd ASN1Identifier.BOOLEAN)
      ⟨[⟨ASN1Identifier.BOOLEAN, 2, false, [0x01, 0x01, 0xFF], some [0xFF]⟩], 0, 1⟩
      ⟨ASN1Identifier.BOOLEAN, .primitive [0xFF], [0x01, 0x01, 0xFF]⟩ (by decide) (by decide)
    rw [h]
    decide⟩

/-- C10: serializing an ASN1Real whose value is NaN fails with
`InvalidASN1Object`, and the serializer's buffer is exactly what it was
before the call — append_primitive_node runs the content writer to
completion on a temporary buffer before appending anything. -/
theorem c10_real_nan_serialize (bits : Nat) (buf : List Nat)
    (h : f64IsNan bits = true) :
    asn1RealSerialize bits buf = (buf, some (.err .invalidASN1Object)) := by
  have e1 : bits &&& 0xFFFFFFFFFFFFF = bits % 2 ^ 52 := by
    have hmask : (0xFFFFFFFFFFFFF : Nat) = 2 ^ 52 - 1 := by norm_num
    rw [hmask, Nat.and_pow_two_sub_one_eq_mod]
  have e2 : bits &&& 0x7FFFFFFFFFFFFFFF = bits % 2 ^ 63 := by
    have hmask : (0x7FFFFFFFFFFFFFFF : Nat) = 2 ^ 63 - 1 := by norm_num
    rw [hmask, Nat.and_pow_two_sub_one_eq_mod]
  have hm : bits % 2 ^ 52 ≠ 0 := by
    unfold f64IsNan at h
    rw [Bool.and_eq_true] at h
    have h2 := h.2
    rw [e1] at h2
    simpa using h2
  have hmm : bits % 2 ^ 63 % 2 ^ 52 = bits % 2 ^ 52 :=
    Nat.mod_mod_of_dvd _ (by norm_num)
  have hz : f64IsZero bits = false := by
    unfold f64IsZero
    rw [e2]
    simp only [beq_eq_false_iff_ne, ne_eq]
    intro h0
    rw [← hmm, h0] at hm
    simp at hm
  have hi : f64IsInfinite bits = false := by
    unfold f64IsInfinite
    rw [e2]
    simp only [beq_eq_false_iff_ne, ne_eq]
    intro h0
    rw [← hmm, h0] at hm
    norm_num at hm
  simp [asn1RealSerialize, appendPrimitiveNode, realContentWriter, hz, hi, h]

/-- Witness for C10 at the canonical quiet-NaN bit pattern. -/
theorem c10_real_nan_serialize_witness :
    f64IsNan 0x7FF8000000000000 = true ∧
    asn1RealSerialize 0x7FF8000000000000 [0x01, 0x02, 0x03]
      = ([0x01, 0x02, 0x03], some (.err .invalidASN1Object)) :=
  ⟨by decide, c10_real_nan_serialize 0x7FF8000000000000 [0x01, 0x02, 0x03] (by decide)⟩

theorem nullNodeStep (f d : Nat) (rest : List Nat) (ns : List ParserNode)
    (hd : d ≤ MAXIMUM_NODE_DEPTH) :
    parseGo .basic (f + 1) (.node d) (0x05 :: 0x00 :: rest) ns
      = .ok (rest, ns ++ [⟨⟨5, .universal⟩, d, false, [0x05, 0x00], some []⟩]) := by
  simp [parseGo, Nat.not_lt.2 hd, readASN1Length, ASN1Identifier.fromShortIdentifier,
    TagClass.fromTopByte, EncodingRules.nonMinimalEncodedLengthsAllowed,
    (by decide : (5:Nat) &&& 31 = 5), (by decide : (5:Nat) &&& 32 = 0),
    (by decide : ¬ ((5:Nat) &&& 31 = 31)),
    (show rest.length + 1 + 1 - rest.length = 2 by omega)]

theorem eocNodeStep (f d : Nat) (rest : List Nat) (ns : List ParserNode)
    (hd : d ≤ MAXIMUM_NODE_DEPTH) :
    parseGo .basic (f + 1) (.node d) (0x00 :: 0x00 :: rest) ns
      = .ok (rest, ns ++ [⟨⟨0, .universal⟩, d, false, [0x00, 0x00], some []⟩]) := by
  simp [parseGo, Nat.not_lt.2 hd, readASN1Length, ASN1Identifier.fromShortIdentifier,
    TagClass.fromTopByte, EncodingRules.nonMinimalEncodedLengthsAllowed,
    (show rest.length + 1 + 1 - rest.length = 2 by omega)]

theorem indefLoopStep (f d : Nat) (b : Nat) (data2 data1 : List Nat)
    (ns nodes1 : List ParserNode) (nd : ParserNode)
    (hnode : parseGo .basic f (.node (d + 1)) (b :: data2) ns = .ok (data1, nodes1))
    (hlast : nodes1.getLast? = some nd) (hmark : nd.isEndMarker = false) :
    parseGo .basic (f + 1) (.indef d) (b :: data2) ns
      = parseGo .basic f (.indef d) data1 nodes1 := by
  rw [parseGo, hnode]
  show (match nodes1.getLast? with
    | some nd => if nd.isEndMarker then Except.ok (data1, nodes1.dropLast)
        else parseGo .basic f (.indef d) data1 nodes1
    | none => parseGo .basic f (.indef d) data1 nodes1) = _
  rw [hlast]
  simp [hmark]

theorem indefLoopEnd (f d : Nat) (b : Nat) (data2 data1 : List Nat)
    (ns nodes1 : List ParserNode) (nd : ParserNode)
    (hnode : parseGo .basic f (.node (d + 1)) (b :: data2) ns = .ok (data1, nodes1))
    (hlast : nodes1.getLast? = some nd) (hmark : nd.isEndMarker = true) :
    parseGo .basic (f + 1) (.indef d) (b :: data2) ns
      = .ok (data1, nodes1.dropLast) := by
  rw [parseGo, hnode]
  show (match nodes1.getLast? with
    | some nd => if nd.isEndMarker then Except.ok (data1, nodes1.dropLast)
        else parseGo .basic f (.indef d) data1 nodes1
    | none => parseGo .basic f (.indef d) data1 nodes1) = _
  rw [hlast]
  simp [hmark]

theorem indefHeaderStep (f d : Nat) (rest data1 : List Nat)
    (ns nodes1 : List ParserNode) (nd : ParserNode)
    (hd : d ≤ MAXIMUM_NODE_DEPTH)
    (hindef : parseGo .basic f (.indef d) rest
        (ns ++ [⟨⟨16, .universal⟩, d, true, [], none⟩]) = .ok (data1, nodes1))
    (hget : nodes1.get? ns.length = some nd) :
    parseGo .basic (f + 1) (.node d) (0x30 :: 0x80 :: rest) ns
      = .ok (data1, nodes1.set ns.length
          { nd with encodedBytes :=
              (0x30 :: 0x80 :: rest).take (rest.length + 1 + 1 - data1.length) }) := by
  have hget2 : nodes1[ns.length]? = some nd := by
    rw [← List.get?_eq_getElem?]
    exact hget
  simp [parseGo, Nat.not_lt.2 hd, readASN1Length, ASN1Identifier.fromShortIdentifier,
    TagClass.fromTopByte, EncodingRules.nonMinimalEncodedLengthsAllowed,
    EncodingRules.indefiniteLengthAllowed,
    (by decide : (48:Nat) &&& 31 = 16), (by decide : (48:Nat) &&& 32 = 32),
    (by decide : ¬ ((48:Nat) &&& 31 = 31)), (by decide : (48:Nat) >>> 6 = 0),
    hindef, hget2]

theorem indefHeaderStepErr (f d : Nat) (rest : List Nat) (ns : List ParserNode)
    (e : ParseFail) (hd : d ≤ MAXIMUM_NODE_DEPTH)
    (hindef : parseGo .basic f (.indef d) rest
        (ns ++ [⟨⟨16, .universal⟩, d, true, [], none⟩]) = .error e) :
    parseGo .basic (f + 1) (.node d) (0x30 :: 0x80 :: rest) ns = .error e := by
  simp [parseGo, Nat.not_lt.2 hd, readASN1Length, ASN1Identifier.fromShortIdentifier,
    TagClass.fromTopByte, EncodingRules.nonMinimalEncodedLengthsAllowed,
    EncodingRules.indefiniteLengthAllowed,
    (by decide : (48:Nat) &&& 31 = 16), (by decide : (48:Nat) &&& 32 = 32),
    (by decide : ¬ ((48:Nat) &&& 31 = 31)), (by decide : (48:Nat) >>> 6 = 0),
    hindef]

theorem indefLoopStepErr (f d : Nat) (b : Nat) (data2 : List Nat)
    (ns : List ParserNode) (e : ParseFail)
    (hnode : parseGo .basic f (.node (d + 1)) (b :: data2) ns = .error e) :
    parseGo .basic (f + 1) (.indef d) (b :: data2) ns = .error e := by
  rw [parseGo, hnode]

-- length helpers

theorem indefHeaders_length (k : Nat) : (indefHeaders k).length = 2 * k := by
  induction k with
  | zero => simp [indefHeaders]
  | succ k ih => simp only [indefHeaders, List.length_cons, ih]; omega

theorem eocMarkers_length (k : Nat) : (eocMarkers k).length = 2 * k := by
  induction k with
  | zero => simp [eocMarkers]
  | succ k ih => simp only [eocMarkers, List.length_cons, ih]; omega

theorem eocMarkers_take (j : Nat) : ∀ t, j ≤ t →
    (eocMarkers t).take (2 * j) = eocMarkers j := by
  induction j with
  | zero => intro t _; simp [eocMarkers]
  | succ j ih =>
    intro t ht
    match t, ht with
    | t + 1, ht =>
      rw [show 2 * (j + 1) = (2 * j) + 1 + 1 from by omega]
      simp only [eocMarkers, List.take_succ_cons]
      rw [ih t (by omega)]

theorem indefHeaders_append (a b : Nat) :
    indefHeaders (a + b) = indefHeaders a ++ indefHeaders b := by
  induction a with
  | zero => simp [indefHeaders]
  | succ a ih =>
    rw [show a + 1 + b = (a + b) + 1 from by omega]
    simp only [indefHeaders, List.cons_append, ih]

theorem setMid (ns ys : List ParserNode) (x x' : ParserNode) :
    (ns ++ x :: ys).set ns.length x' = ns ++ x' :: ys := by
  induction ns with
  | nil => simp
  | cons a as ih => simp [List.set, ih]

theorem nestNodes_ne_nil (d m : Nat) (hm : 1 ≤ m) : nestNodes d m ≠ [] := by
  match m, hm with
  | m + 1, _ => simp [nestNodes]

theorem nestNodes_getLast_constructed (m : Nat) : ∀ d, 1 ≤ m →
    ∃ nd : ParserNode, (nestNodes d m).getLast? = some nd ∧ nd.isConstructed = true := by
  induction m with
  | zero => intro d h; omega
  | succ m ih =>
    intro d _
    by_cases hm : 1 ≤ m
    · obtain ⟨nd, hnd, hc⟩ := ih (d + 1) hm
      refine ⟨nd, ?_, hc⟩
      rw [show nestNodes d (m + 1)
        = [⟨⟨16, .universal⟩, d, true, indefHeaders (m + 1) ++ eocMarkers (m + 1), none⟩]
          ++ nestNodes (d + 1) m from rfl]
      rw [List.getLast?_append_of_ne_nil _ (nestNodes_ne_nil (d + 1) m hm)]
      exact hnd
    · have hm0 : m = 0 := by omega
      subst hm0
      exact ⟨⟨⟨16, .universal⟩, d, true, indefHeaders 1 ++ eocMarkers 1, none⟩,
        by simp [nestNodes], rfl⟩

theorem indefEoc (t d g : Nat) (ns : List ParserNode) (ht : 1 ≤ t)
    (hd : d + 1 ≤ MAXIMUM_NODE_DEPTH) :
    parseGo .basic (g + 2) (.indef d) (eocMarkers t) ns
      = .ok (eocMarkers (t - 1), ns) := by
  match t, ht with
  | t + 1, _ =>
    have hnode := eocNodeStep g (d + 1) (eocMarkers t) ns hd
    have hend := indefLoopEnd (g + 1) d 0x00 (0x00 :: eocMarkers t) (eocMarkers t)
      ns (ns ++ [⟨⟨0, .universal⟩, d + 1, false, [0x00, 0x00], some []⟩])
      ⟨⟨0, .universal⟩, d + 1, false, [0x00, 0x00], some []⟩
      hnode (List.getLast?_concat _) (by simp [ParserNode.isEndMarker])
    rw [List.dropLast_concat] at hend
    simpa [eocMarkers] using hend

theorem nestIS : ∀ m : Nat,
    (∀ t d f ns, m + 1 ≤ t → d + 1 + m ≤ MAXIMUM_NODE_DEPTH → 2 * m + 2 * t + 2 ≤ f →
      parseGo .basic f (.indef d) (indefHeaders m ++ eocMarkers t) ns
        = .ok (eocMarkers (t - m - 1), ns ++ nestNodes (d + 1) m)) ∧
    (∀ t d f ns, m + 1 ≤ t → d + (m + 1) ≤ MAXIMUM_NODE_DEPTH → 2 * (m + 1) + 2 * t + 1 ≤ f →
      parseGo .basic f (.node d) (indefHeaders (m + 1) ++ eocMarkers t) ns
        = .ok (eocMarkers (t - (m + 1)), ns ++ nestNodes d (m + 1))) := by
  intro m
  induction m with
  | zero =>
    have hI0 : ∀ t d f ns, 0 + 1 ≤ t → d + 1 + 0 ≤ MAXIMUM_NODE_DEPTH →
        2 * 0 + 2 * t + 2 ≤ f →
        parseGo .basic f (.indef d) (indefHeaders 0 ++ eocMarkers t) ns
          = .ok (eocMarkers (t - 0 - 1), ns ++ nestNodes (d + 1) 0) := by
      intro t d f ns ht hd hf
      obtain ⟨g, rfl⟩ : ∃ g, f = g + 2 := ⟨f - 2, by omega⟩
      simpa [indefHeaders, nestNodes] using indefEoc t d g ns (by omega) (by omega)
    refine ⟨hI0, ?_⟩
    intro t d f1 ns ht hd hf
    obtain ⟨f, rfl⟩ : ∃ g, f1 = g + 1 := ⟨f1 - 1, by omega⟩
    have hindef : parseGo .basic f (.indef d) (eocMarkers t)
        (ns ++ [⟨⟨16, .universal⟩, d, true, [], none⟩])
        = .ok (eocMarkers (t - 1), ns ++ [⟨⟨16, .universal⟩, d, true, [], none⟩]) := by
      obtain ⟨g, rfl⟩ : ∃ g, f = g + 2 := ⟨f - 2, by omega⟩
      exact indefEoc t d g _ (by omega) (by omega)
    have hget : (ns ++ [(⟨⟨16, .universal⟩, d, true, [], none⟩ : ParserNode)]).get? ns.length
        = some ⟨⟨16, .universal⟩, d, true, [], none⟩ := by
      rw [List.get?_append_right (by omega)]
      simp
    have hh := indefHeaderStep f d (eocMarkers t) (eocMarkers (t - 1)) ns
      (ns ++ [⟨⟨16, .universal⟩, d, true, [], none⟩])
      ⟨⟨16, .universal⟩, d, true, [], none⟩ (by omega) hindef hget
    rw [show indefHeaders (0 + 1) ++ eocMarkers t = 0x30 :: 0x80 :: eocMarkers t from by
      simp [indefHeaders]]
    rw [hh]
    rw [show (ns ++ [(⟨⟨16, .universal⟩, d, true, [], none⟩ : ParserNode)]).set ns.length
        (⟨⟨16, .universal⟩, d, true,
          (0x30 :: 0x80 :: eocMarkers t).take ((eocMarkers t).length + 1 + 1
            - (eocMarkers (t - 1)).length), none⟩ : ParserNode)
      = ns ++ [⟨⟨16, .universal⟩, d, true,
          (0x30 :: 0x80 :: eocMarkers t).take ((eocMarkers t).length + 1 + 1
            - (eocMarkers (t - 1)).length), none⟩] from setMid ns [] _ _]
    have htake : (0x30 :: 0x80 :: eocMarkers t).take ((eocMarkers t).length + 1 + 1
        - (eocMarkers (t - 1)).length) = indefHeaders 1 ++ eocMarkers 1 := by
      rw [eocMarkers_length, eocMarkers_length]
      rw [show 2 * t + 1 + 1 - 2 * (t - 1) = 2 * 1 + 1 + 1 from by omega]
      simp only [List.take_succ_cons]
      rw [eocMarkers_take 1 t (by omega)]
      simp [indefHeaders]
    rw [htake]
    simp [nestNodes]
  | succ m ih =>
    have hI : ∀ t d f ns, (m + 1) + 1 ≤ t → d + 1 + (m + 1) ≤ MAXIMUM_NODE_DEPTH →
        2 * (m + 1) + 2 * t + 2 ≤ f →
        parseGo .basic f (.indef d) (indefHeaders (m + 1) ++ eocMarkers t) ns
          = .ok (eocMarkers (t - (m + 1) - 1), ns ++ nestNodes (d + 1) (m + 1)) := by
      intro t d f1 ns ht hd hf
      obtain ⟨f, rfl⟩ : ∃ g, f1 = g + 1 := ⟨f1 - 1, by omega⟩
      have hnode := ih.2 t (d + 1) f ns (by omega) (by omega) (by omega)
      obtain ⟨nd, hnd, hc⟩ := nestNodes_getLast_constructed (m + 1) (d + 1) (by omega)
      have hlast : (ns ++ nestNodes (d + 1) (m + 1)).getLast? = some nd := by
        rw [List.getLast?_append_of_ne_nil _ (nestNodes_ne_nil (d + 1) (m + 1) (by omega))]
        exact hnd
      have hmark : nd.isEndMarker = false := by
        simp [ParserNode.isEndMarker, hc]
      rw [show indefHeaders (m + 1) ++ eocMarkers t
        = 0x30 :: 0x80 :: (indefHeaders m ++ eocMarkers t) from by simp [indefHeaders]]
      rw [indefLoopStep f d 0x30 (0x80 :: (indefHeaders m ++ eocMarkers t))
        (eocMarkers (t - (m + 1))) ns (ns ++ nestNodes (d + 1) (m + 1)) nd
        (by
          rw [show (0x30 : Nat) :: 0x80 :: (indefHeaders m ++ eocMarkers t)
            = indefHeaders (m + 1) ++ eocMarkers t from by simp [indefHeaders]]
          exact hnode)
        hlast hmark]
      obtain ⟨g, rfl⟩ : ∃ g, f = g + 2 := ⟨f - 2, by omega⟩
      rw [indefEoc (t - (m + 1)) d g (ns ++ nestNodes (d + 1) (m + 1)) (by omega) (by omega)]
    refine ⟨hI, ?_⟩
    intro t d f1 ns ht hd hf
    obtain ⟨f, rfl⟩ : ∃ g, f1 = g + 1 := ⟨f1 - 1, by omega⟩
    have hindef := hI t d f (ns ++ [⟨⟨16, .universal⟩, d, true, [], none⟩])
      (by omega) (by omega) (by omega)
    have hget : ((ns ++ [(⟨⟨16, .universal⟩, d, true, [], none⟩ : ParserNode)])
        ++ nestNodes (d + 1) (m + 1)).get? ns.length
        = some ⟨⟨16, .universal⟩, d, true, [], none⟩ := by
      rw [List.append_assoc, List.get?_append_right (by omega)]
      simp
    have hh := indefHeaderStep f d (indefHeaders (m + 1) ++ eocMarkers t)
      (eocMarkers (t - (m + 1) - 1)) ns
      ((ns ++ [⟨⟨16, .universal⟩, d, true, [], none⟩]) ++ nestNodes (d + 1) (m + 1))
      ⟨⟨16, .universal⟩, d, true, [], none⟩ (by omega) hindef hget
    rw [show indefHeaders (m + 1 + 1) ++ eocMarkers t
      = 0x30 :: 0x80 :: (indefHeaders (m + 1) ++ eocMarkers t) from by simp [indefHeaders]]
    rw [hh]
    have hset : ((ns ++ [(⟨⟨16, .universal⟩, d, true, [], none⟩ : ParserNode)])
        ++ nestNodes (d + 1) (m + 1)).set ns.length
        (⟨⟨16, .universal⟩, d, true,
          (0x30 :: 0x80 :: (indefHeaders (m + 1) ++ eocMarkers t)).take
            ((indefHeaders (m + 1) ++ eocMarkers t).length + 1 + 1
              - (eocMarkers (t - (m + 1) - 1)).length), none⟩ : ParserNode)
        = ns ++ (⟨⟨16, .universal⟩, d, true,
          (0x30 :: 0x80 :: (indefHeaders (m + 1) ++ eocMarkers t)).take
            ((indefHeaders (m + 1) ++ eocMarkers t).length + 1 + 1
              - (eocMarkers (t - (m + 1) - 1)).length), none⟩
          :: nestNodes (d + 1) (m + 1)) := by
      rw [List.append_assoc, List.singleton_append]
      exact setMid ns (nestNodes (d + 1) (m + 1)) _ _
    rw [hset]
    have htake : (0x30 :: 0x80 :: (indefHeaders (m + 1) ++ eocMarkers t)).take
        ((indefHeaders (m + 1) ++ eocMarkers t).length + 1 + 1
          - (eocMarkers (t - (m + 1) - 1)).length)
        = indefHeaders (m + 1 + 1) ++ eocMarkers (m + 1 + 1) := by
      rw [List.length_append, indefHeaders_length, eocMarkers_length, eocMarkers_length]
      rw [show 2 * (m + 1) + 2 * t + 1 + 1 - 2 * (t - (m + 1) - 1)
        = (2 * (m + 1) + 2 * (m + 1 + 1)) + 1 + 1 from by omega]
      rw [show indefHeaders (m + 1 + 1) = 0x30 :: 0x80 :: indefHeaders (m + 1) from by
        simp [indefHeaders]]
      simp only [List.take_succ_cons, List.cons_append]
      congr 2
      rw [List.take_append_eq_append_take]
      rw [indefHeaders_length]
      rw [show 2 * (m + 1) + 2 * (m + 1 + 1) - 2 * (m + 1) = 2 * (m + 1 + 1) from by omega]
      rw [List.take_of_length_le (by rw [indefHeaders_length]; omega)]
      rw [eocMarkers_take (m + 1 + 1) t (by omega)]
    rw [htake]
    rw [show (⟨⟨16, .universal⟩, d, true,
        indefHeaders (m + 1 + 1) ++ eocMarkers (m + 1 + 1), none⟩
        :: nestNodes (d + 1) (m + 1) : List ParserNode)
      = nestNodes d (m + 1 + 1) from rfl]
    rw [show t - (m + 1) - 1 = t - (m + 1 + 1) from by omega]

theorem depthFailure : ∀ j : Nat, ∀ d f : Nat, ∀ ns : List ParserNode, ∀ rest : List Nat,
    d + j = MAXIMUM_NODE_DEPTH + 1 → rest ≠ [] → 2 * j + 1 ≤ f →
    parseGo .basic f (.node d) (indefHeaders j ++ rest) ns
      = .error (.err .invalidASN1Object) := by
  intro j
  induction j with
  | zero =>
    intro d f ns rest hd hrest hf
    obtain ⟨g, rfl⟩ : ∃ g, f = g + 1 := ⟨f - 1, by omega⟩
    have hd51 : d = 51 := by simp [MAXIMUM_NODE_DEPTH] at hd; omega
    subst hd51
    rw [show indefHeaders 0 ++ rest = rest from by simp [indefHeaders]]
    cases rest with
    | nil => exact absurd rfl hrest
    | cons b l =>
      simp [parseGo, MAXIMUM_NODE_DEPTH]
  | succ j ih =>
    intro d f ns rest hd hrest hf
    simp only [MAXIMUM_NODE_DEPTH] at hd
    obtain ⟨g, rfl⟩ : ∃ g, f = g + 2 := ⟨f - 2, by omega⟩
    have hindef : parseGo .basic (g + 1) (.indef d) (indefHeaders j ++ rest)
        (ns ++ [⟨⟨16, .universal⟩, d, true, [], none⟩]) = .error (.err .invalidASN1Object) := by
      have hnode := ih (d + 1) g (ns ++ [⟨⟨16, .universal⟩, d, true, [], none⟩]) rest
        (by simp only [MAXIMUM_NODE_DEPTH]; omega) hrest (by omega)
      cases hcons : indefHeaders j ++ rest with
      | nil =>
        rw [List.append_eq_nil] at hcons
        exact absurd hcons.2 hrest
      | cons b l =>
        rw [hcons] at hnode
        exact indefLoopStepErr g d b l _ _ hnode
    exact indefHeaderStepErr (g + 1) d (indefHeaders j ++ rest) ns _
      (by simp only [MAXIMUM_NODE_DEPTH]; omega) hindef

theorem nullLoopRun : ∀ n f : Nat, ∀ ns : List ParserNode, n + 2 ≤ f →
    parseGo .basic f (.indef 1) (nullItems n ++ [0x00, 0x00]) ns
      = .ok ([], ns ++ List.replicate n nullChildNode) := by
  intro n
  induction n with
  | zero =>
    intro f ns hf
    match f, hf with
    | f + 2, _ =>
      have hnode := eocNodeStep f 2 [] ns (by decide)
      have hend := indefLoopEnd (f + 1) 1 0x00 [0x00] []
        ns (ns ++ [⟨⟨0, .universal⟩, 2, false, [0x00, 0x00], some []⟩])
        ⟨⟨0, .universal⟩, 2, false, [0x00, 0x00], some []⟩
        hnode (List.getLast?_concat _) (by decide)
      rw [List.dropLast_concat] at hend
      simpa [nullItems] using hend
  | succ n ih =>
    intro f ns hf
    match f, hf with
    | f + 2, hf =>
      have hnode := nullNodeStep f 2 (nullItems n ++ [0x00, 0x00]) ns (by decide)
      have hstep := indefLoopStep (f + 1) 1 0x05 (0x00 :: (nullItems n ++ [0x00, 0x00]))
        (nullItems n ++ [0x00, 0x00]) ns (ns ++ [nullChildNode]) nullChildNode
        hnode (List.getLast?_concat _) (by decide)
      have hrec := ih (f + 1) (ns ++ [nullChildNode]) (by omega)
      rw [show nullItems (n + 1) ++ [0x00, 0x00]
        = 0x05 :: 0x00 :: (nullItems n ++ [0x00, 0x00]) from by simp [nullItems]]
      rw [hstep, hrec]
      simp [List.replicate_succ]

theorem nullItems_length (n : Nat) : (nullItems n).length = 2 * n := by
  induction n with
  | zero => simp [nullItems]
  | succ n ih => simp only [nullItems, List.length_cons, ih]; omega

theorem nodeCountParseAll (n : Nat) :
    parseResultParse (nodeCountInput n) .basic
      = .ok (nodeCountRoot n :: List.replicate n nullChildNode) := by
  have hindef := nullLoopRun n ((nullItems n ++ [0x00, 0x00]).length + 2)
    ([] ++ [⟨⟨16, .universal⟩, 1, true, [], none⟩]) (by
      simp [nullItems_length]
      omega)
  have hhead := indefHeaderStep ((nullItems n ++ [0x00, 0x00]).length + 2) 1
    (nullItems n ++ [0x00, 0x00]) []
    [] ([⟨⟨16, .universal⟩, 1, true, [], none⟩] ++ List.replicate n nullChildNode)
    ⟨⟨16, .universal⟩, 1, true, [], none⟩
    (by decide) hindef (by simp)
  rw [parseResultParse]
  rw [show (nodeCountInput n).length + 1 = ((nullItems n ++ [0x00, 0x00]).length + 2) + 1 from by
    simp [nodeCountInput]]
  rw [show nodeCountInput n = 0x30 :: 0x80 :: (nullItems n ++ [0x00, 0x00]) from rfl]
  rw [hhead]
  simp [List.take_of_length_le, nodeCountRoot, nodeCountInput]

/-- C1: the claim says a node-count cap of 100 000 is enforced as nodes are
appended, rejecting any parse that would emit more nodes with
`InvalidASN1Object`.  The tree builder in src/asn1.rs has no such check (the
repository's own test tests/resource_exhaustion.rs expects the rejection):
the BER input `30 80` followed by 100 001 NULL TLVs `05 00` and the
end-of-content marker parses successfully into 100 002 nodes. -/
theorem c1_node_count_cap_missing :
    parseResultParse (nodeCountInput 100001) .basic
      = .ok (nodeCountRoot 100001 :: List.replicate 100001 nullChildNode) ∧
    (nodeCountRoot 100001 :: List.replicate 100001 nullChildNode).length = 100002 := by
  refine ⟨nodeCountParseAll 100001, ?_⟩
  rw [List.length_cons, List.length_replicate]

/-- C3: the depth limit of 50 is checked at the entry of each recursive
parse call and the end-of-content marker of an indefinite-length node is
parsed one level deeper than its parent, so under BER `k` nested
indefinite-length SEQUENCEs decode successfully for every `1 ≤ k ≤ 49` (into
the `k` expected constructed nodes) and fail with `InvalidASN1Object` for
every `k ≥ 50`. -/
theorem c3_depth_limit (k : Nat) :
    (1 ≤ k → k ≤ 49 → parseResultParse (nestedIndefSeq k) .basic = .ok (nestNodes 1 k)) ∧
    (50 ≤ k → parseResultParse (nestedIndefSeq k) .basic
      = .error (.err .invalidASN1Object)) := by
  have hlen : (nestedIndefSeq k).length = 4 * k := by
    simp [nestedIndefSeq, indefHeaders_length, eocMarkers_length]
    omega
  constructor
  · intro hk1 hk49
    obtain ⟨m, rfl⟩ : ∃ m, k = m + 1 := ⟨k - 1, by omega⟩
    have hS := (nestIS m).2 (m + 1) 1 ((nestedIndefSeq (m + 1)).length + 1) []
      (by omega) (by simp [MAXIMUM_NODE_DEPTH]; omega) (by rw [hlen]; omega)
    rw [parseResultParse]
    rw [show nestedIndefSeq (m + 1) = indefHeaders (m + 1) ++ eocMarkers (m + 1) from rfl] at hS ⊢
    rw [hS]
    simp [eocMarkers]
  · intro hk50
    have hsplit : indefHeaders k = indefHeaders 50 ++ indefHeaders (k - 50) := by
      rw [← indefHeaders_append]
      rw [show 50 + (k - 50) = k from by omega]
    have hrest_ne : indefHeaders (k - 50) ++ eocMarkers k ≠ [] := by
      cases hk : eocMarkers k with
      | nil =>
        exfalso
        have := eocMarkers_length k
        rw [hk] at this
        simp at this
        omega
      | cons a l => simp
    have hF := depthFailure 50 1 ((nestedIndefSeq k).length + 1) []
      (indefHeaders (k - 50) ++ eocMarkers k)
      (by simp [MAXIMUM_NODE_DEPTH]) hrest_ne (by rw [hlen]; omega)
    rw [parseResultParse]
    rw [show nestedIndefSeq k = indefHeaders k ++ eocMarkers k from rfl]
    rw [hsplit, List.append_assoc]
    rw [show (indefHeaders 50 ++ (indefHeaders (k - 50) ++ eocMarkers k)).length + 1
      = (nestedIndefSeq k).length + 1 from by
        rw [← List.append_assoc, ← hsplit]
        rfl]
    rw [hF]

/-- Witness for C3 at `k = 1` (success) and `k = 50` (depth failure). -/
theorem c3_depth_limit_witness :
    parseResultParse (nestedIndefSeq 1) .basic = .ok (nestNodes 1 1) ∧
    parseResultParse (nestedIndefSeq 50) .basic = .error (.err .invalidASN1Object) :=
  ⟨(c3_depth_limit 1).1 (by decide) (by decide), (c3_depth_limit 50).2 (by decide)⟩

theorem headDropLast (l : List ParserNode) (x : ParserNode)
    (h : l.dropLast.head? = some x) : l.head? = some x := by
  cases l with
  | nil => simp at h
  | cons a t =>
    cases t with
    | nil => simp at h
    | cons b t2 =>
      simp [List.dropLast] at h ⊢
      exact h

theorem parsedBlock_nil (d : Nat) : parsedBlock d [] := by
  refine ⟨by simp, by simp, by simp⟩

theorem parsedBlock_single (d : Nat) (nd : ParserNode) (hd : nd.depth = d)
    (h50 : d ≤ MAXIMUM_NODE_DEPTH)
    (hdata : nd.isConstructed = false → nd.dataBytes.isSome = true) :
    parsedBlock d [nd] := by
  refine ⟨?_, by simp, ?_⟩
  · intro x hx
    simp at hx
    subst hx
    exact ⟨by omega, by omega, hdata⟩
  · intro x hx
    simp at hx
    subst hx
    exact hd

theorem parsedBlock_cons (d : Nat) (nd : ParserNode) (new : List ParserNode)
    (hd : nd.depth = d) (h50 : d ≤ MAXIMUM_NODE_DEPTH)
    (hdata : nd.isConstructed = false → nd.dataBytes.isSome = true)
    (hblk : parsedBlock (d + 1) new) : parsedBlock d (nd :: new) := by
  obtain ⟨hall, hchain, hhead⟩ := hblk
  refine ⟨?_, ?_, ?_⟩
  · intro x hx
    rcases List.mem_cons.1 hx with hx | hx
    · subst hx
      exact ⟨by omega, by omega, hdata⟩
    · obtain ⟨h1, h2, h3⟩ := hall x hx
      exact ⟨by omega, h2, h3⟩
  · rw [List.chain'_cons']
    refine ⟨?_, hchain⟩
    intro y hy
    have := hhead y hy
    simp [depthStepOk, this, hd]
  · intro x hx
    simp at hx
    rw [← hx]
    exact hd

theorem parsedBlock_append (d : Nat) (n1 n2 : List ParserNode)
    (h1 : parsedBlock d n1) (h2 : parsedBlock d n2) : parsedBlock d (n1 ++ n2) := by
  obtain ⟨hall1, hchain1, hhead1⟩ := h1
  obtain ⟨hall2, hchain2, hhead2⟩ := h2
  refine ⟨?_, ?_, ?_⟩
  · intro x hx
    rcases List.mem_append.1 hx with hx | hx
    · exact hall1 x hx
    · exact hall2 x hx
  · rw [List.chain'_append]
    refine ⟨hchain1, hchain2, ?_⟩
    intro x hx y hy
    have hxm := List.mem_of_mem_getLast? hx
    have hxd := (hall1 x hxm).1
    have hyd := hhead2 y hy
    simp [depthStepOk, hyd]
    omega
  · intro x hx
    cases hn1 : n1 with
    | nil =>
      rw [hn1] at hx
      simp at hx
      exact hhead2 x hx
    | cons a t =>
      rw [hn1] at hx
      rw [List.head?_append_of_ne_nil _ (by simp)] at hx
      rw [← hn1] at hx
      exact hhead1 x hx

theorem parsedBlock_dropLast (d : Nat) (n1 : List ParserNode)
    (h : parsedBlock d n1) : parsedBlock d n1.dropLast := by
  obtain ⟨hall, hchain, hhead⟩ := h
  refine ⟨?_, ?_, ?_⟩
  · intro x hx
    rw [List.dropLast_eq_take] at hx
    exact hall x (List.take_subset _ _ hx)
  · rw [List.dropLast_eq_take]
    exact List.Chain'.take hchain _
  · intro x hx
    exact hhead x (headDropLast _ _ hx)

theorem blockOutError (dep : Nat) (b : Bool) (nodes : List ParserNode) (e : ParseFail)
    (he : e ≠ .outOfBounds) : blockOut dep b nodes (.error e) := by
  constructor
  · intro rem ns1 h
    exact absurd h (by simp)
  · intro hcon
    apply he
    injection hcon

theorem blockOutOkEq (dep : Nat) (b : Bool) (nodes ns1 new : List ParserNode)
    (rem : List Nat) (hns : ns1 = nodes ++ new) (hblk : parsedBlock dep new)
    (hne : b = true → new ≠ []) : blockOut dep b nodes (.ok (rem, ns1)) := by
  constructor
  · intro rem' ns1' h
    have h2 : ns1 = ns1' := by
      have := h
      simp at this
      exact this.2
    exact ⟨new, by rw [← h2, hns], hblk, hne⟩
  · simp

theorem blockOutCombine (dep : Nat) (bb : Bool) (nodes nodes1 new1 : List ParserNode)
    (r : Except ParseFail (List Nat × List ParserNode))
    (hns1 : nodes1 = nodes ++ new1) (hblk1 : parsedBlock dep new1)
    (hrec : blockOut dep bb nodes1 r) : blockOut dep false nodes r := by
  constructor
  · intro rem ns1 h
    obtain ⟨new2, h2, hb2, _⟩ := hrec.1 rem ns1 h
    exact ⟨new1 ++ new2, by rw [h2, hns1, List.append_assoc],
      parsedBlock_append dep new1 new2 hblk1 hb2, by simp⟩
  · exact hrec.2

theorem readUint_no_oob : ∀ data : List Nat, ∀ v : Nat,
    readASN1DisciplineUint data v ≠ .error .outOfBounds := by
  intro data
  induction data with
  | nil => intro v; simp [readASN1DisciplineUint]
  | cons b rest ih =>
    intro v
    rw [readASN1DisciplineUint]
    split
    · simp
    · split
      · simp
      · exact ih _

theorem computeLen_no_oob : ∀ data : List Nat, ∀ acc : Nat,
    computeLongLength data acc ≠ .error .outOfBounds := by
  intro data
  induction data with
  | nil => intro acc; simp [computeLongLength]
  | cons b rest ih =>
    intro acc
    rw [computeLongLength]
    split
    · simp
    · exact ih _

theorem readLen_no_oob (m : Bool) : ∀ data : List Nat,
    readASN1Length m data ≠ .error .outOfBounds := by
  intro data
  match data with
  | [] => simp [readASN1Length]
  | firstByte :: rest =>
    simp only [readASN1Length]
    split
    · simp
    · split
      · split
        · simp
        · cases hc : computeLongLength (rest.take (firstByte &&& 0x7F)) 0 with
          | error e =>
            have hno := computeLen_no_oob (rest.take (firstByte &&& 0x7F)) 0
            rw [hc] at hno
            simpa using hno
          | ok len =>
            show (if m = true then _ else _) ≠ _
            split
            · split
              · simp
              · split
                · simp
                · simp
            · simp
      · simp

theorem getMid (ns ys : List ParserNode) (x : ParserNode) :
    (ns ++ x :: ys).get? ns.length = some x := by
  induction ns with
  | nil => simp
  | cons a as ih => simpa using ih

theorem idStep_no_oob (raw : Nat) (rest : List Nat) :
    (if raw &&& 0x1F == 0x1F then
        match readASN1DisciplineUint rest 0 with
        | .error e => .error e
        | .ok (tagNumber, rest1) =>
          if tagNumber < 0x1F then .error (.err .invalidASN1Object)
          else .ok (⟨tagNumber, TagClass.fromTopByte raw⟩, rest1)
      else .ok (ASN1Identifier.fromShortIdentifier raw, rest)
      : Except ParseFail (ASN1Identifier × List Nat)) ≠ .error .outOfBounds := by
  split
  · cases hu : readASN1DisciplineUint rest 0 with
    | error e =>
      have hno := readUint_no_oob rest 0
      rw [hu] at hno
      have he : e ≠ ParseFail.outOfBounds := fun h => hno (by rw [h])
      show Except.error e ≠ _
      intro hcon
      injection hcon with h2
      exact he h2
    | ok p =>
      obtain ⟨t, r1⟩ := p
      show (if t < 31 then _ else _) ≠ _
      split
      · simp
      · simp
  · simp

theorem parseGoMain : ∀ fuel : Nat, ∀ rules : EncodingRules, ∀ cmd : PCmd,
    ∀ data : List Nat, ∀ nodes : List ParserNode,
    blockOut (cmdBlockDepth cmd) (isNodeCmd cmd) nodes (parseGo rules fuel cmd data nodes) := by
  intro fuel
  induction fuel with
  | zero =>
    intro rules cmd data nodes
    exact blockOutError _ _ _ _ (by simp)
  | succ fuel ih =>
    intro rules cmd data nodes
    match cmd with
    | .children d =>
      simp only [cmdBlockDepth, isNodeCmd, parseGo]
      split
      · exact blockOutOkEq d false nodes nodes [] [] (by simp) (parsedBlock_nil d) (by simp)
      · rename_i b l
        cases hinner : parseGo rules fuel (.node d) (b :: l) nodes with
        | error e =>
          refine blockOutError _ _ _ _ ?_
          have hno := (ih rules (.node d) (b :: l) nodes).2
          rw [hinner] at hno
          intro hcon
          rw [hcon] at hno
          simp at hno
        | ok res =>
          obtain ⟨data1, nodes1⟩ := res
          obtain ⟨new1, hns1, hblk1, _⟩ :=
            (ih rules (.node d) (b :: l) nodes).1 data1 nodes1 hinner
          exact blockOutCombine d (isNodeCmd (.children d)) nodes nodes1 new1 _ hns1
            hblk1 (ih rules (.children d) data1 nodes1)
    | .indef d =>
      simp only [cmdBlockDepth, isNodeCmd, parseGo]
      split
      · exact blockOutError _ _ _ _ (by simp)
      · rename_i b l
        cases hinner : parseGo rules fuel (.node (d + 1)) (b :: l) nodes with
        | error e =>
          refine blockOutError _ _ _ _ ?_
          have hno := (ih rules (.node (d + 1)) (b :: l) nodes).2
          rw [hinner] at hno
          intro hcon
          rw [hcon] at hno
          simp at hno
        | ok res =>
          obtain ⟨data1, nodes1⟩ := res
          obtain ⟨new1, hns1, hblk1, hne1⟩ :=
            (ih rules (.node (d + 1)) (b :: l) nodes).1 data1 nodes1 hinner
          have hne1' : new1 ≠ [] := hne1 rfl
          show blockOut (d + 1) false nodes (match nodes1.getLast? with
            | some nd => if nd.isEndMarker = true then Except.ok (data1, nodes1.dropLast)
                else parseGo rules fuel (.indef d) data1 nodes1
            | none => parseGo rules fuel (.indef d) data1 nodes1)
          cases hlast : nodes1.getLast? with
          | none =>
            exact blockOutCombine (d + 1) (isNodeCmd (.indef d)) nodes nodes1 new1 _ hns1
              hblk1 (ih rules (.indef d) data1 nodes1)
          | some nd =>
            show blockOut (d + 1) false nodes (if nd.isEndMarker = true
              then Except.ok (data1, nodes1.dropLast)
              else parseGo rules fuel (.indef d) data1 nodes1)
            cases hmark : nd.isEndMarker with
            | true =>
              refine blockOutOkEq (d + 1) false nodes nodes1.dropLast new1.dropLast data1
                ?_ (parsedBlock_dropLast _ _ hblk1) (by simp)
              rw [hns1]
              exact List.dropLast_append_of_ne_nil nodes hne1'
            | false =>
              exact blockOutCombine (d + 1) (isNodeCmd (.indef d)) nodes nodes1 new1 _ hns1
                hblk1 (ih rules (.indef d) data1 nodes1)
    | .node d =>
      simp only [cmdBlockDepth, isNodeCmd, parseGo]
      split
      · exact blockOutError _ _ _ _ (by simp)
      · rename_i hd50
        split
        · exact blockOutError _ _ _ _ (by simp)
        · rename_i raw rest
          split
          · rename_i e heq
            refine blockOutError _ _ _ _ ?_
            intro hcon
            subst hcon
            exact idStep_no_oob raw rest heq
          · rename_i identifier rest1 heq
            split
            · rename_i e heq2
              refine blockOutError _ _ _ _ ?_
              intro hcon
              subst hcon
              exact readLen_no_oob _ rest1 heq2
            · rename_i n rest2 heq2
              split
              · exact blockOutError _ _ _ _ (by simp)
              · rename_i hlen
                split
                · rename_i hctor
                  split
                  · rename_i e heq3
                    refine blockOutError _ _ _ _ ?_
                    intro hcon
                    subst hcon
                    exact (ih rules (.children (d + 1)) _ _).2 heq3
                  · rename_i rem1 nodes1 heq3
                    obtain ⟨new, hns, hblk, _⟩ :=
                      (ih rules (.children (d + 1)) _ _).1 rem1 nodes1 heq3
                    refine blockOutOkEq d true nodes nodes1
                      (⟨identifier, d, true,
                        (raw :: rest).take ((raw :: rest).length - (rest2.drop n).length),
                        none⟩ :: new) (rest2.drop n) ?_ ?_ (by simp)
                    · rw [hns, List.append_assoc]
                      rfl
                    · exact parsedBlock_cons d _ new rfl (Nat.not_lt.1 hd50) (by simp) hblk
                · exact blockOutOkEq d true nodes _
                    [⟨identifier, d, false,
                      (raw :: rest).take ((raw :: rest).length - (rest2.drop n).length),
                      some (rest2.take n)⟩] (rest2.drop n) rfl
                    (parsedBlock_single d _ rfl (Nat.not_lt.1 hd50) (by simp)) (by simp)
            · rename_i rest2 heq2
              split
              · exact blockOutError _ _ _ _ (by simp)
              · split
                · exact blockOutError _ _ _ _ (by simp)
                · split
                  · rename_i e heq3
                    refine blockOutError _ _ _ _ ?_
                    intro hcon
                    subst hcon
                    exact (ih rules (.indef d) _ _).2 heq3
                  · rename_i dataAfter nodes1 heq3
                    obtain ⟨new, hns, hblk, _⟩ :=
                      (ih rules (.indef d) _ _).1 dataAfter nodes1 heq3
                    have hns2 : nodes1 = nodes ++
                        (⟨identifier, d, true, [], none⟩ : ParserNode) :: new := by
                      rw [hns, List.append_assoc]
                      rfl
                    have hget : nodes1.get? nodes.length
                        = some ⟨identifier, d, true, [], none⟩ := by
                      rw [hns2]
                      exact getMid nodes new _
                    rw [hget]
                    refine blockOutOkEq d true nodes _
                      (⟨identifier, d, true,
                        (raw :: rest).take ((raw :: rest).length - dataAfter.length),
                        none⟩ :: new) dataAfter ?_ ?_ (by simp)
                    · rw [hns2]
                      exact setMid nodes new _ _
                    · exact parsedBlock_cons d _ new rfl (Nat.not_lt.1 hd50) (by simp) hblk

theorem parseResultParse_block (data : List Nat) (rules : EncodingRules)
    (ns : List ParserNode) (h : parseResultParse data rules = .ok ns) :
    ns ≠ [] ∧ parsedBlock 1 ns := by
  rw [parseResultParse] at h
  cases hp : parseGo rules (data.length + 1) (.node 1) data [] with
  | error e =>
    rw [hp] at h
    simp at h
  | ok res =>
    obtain ⟨rem, nodes0⟩ := res
    rw [hp] at h
    obtain ⟨new, hns, hblk, hne⟩ :=
      (parseGoMain (data.length + 1) rules (.node 1) data []).1 rem nodes0 hp
    cases rem with
    | nil =>
      simp at h
      subst h
      rw [hns]
      simp only [List.nil_append]
      exact ⟨hne rfl, hblk⟩
    | cons a l =>
      simp at h

theorem parseResultParse_no_oob (data : List Nat) (rules : EncodingRules) :
    parseResultParse data rules ≠ .error .outOfBounds := by
  rw [parseResultParse]
  cases hp : parseGo rules (data.length + 1) (.node 1) data [] with
  | error e =>
    have hno := (parseGoMain (data.length + 1) rules (.node 1) data []).2
    rw [hp] at hno
    have he : e ≠ ParseFail.outOfBounds := fun hh => hno (by rw [hh])
    show Except.error e ≠ _
    intro hcon
    injection hcon with h2
    exact he h2
  | ok res =>
    obtain ⟨rem, nodes0⟩ := res
    cases rem with
    | nil => simp
    | cons a l => simp

/-- C9: whenever ParseResult::parse succeeds, the returned node vector is
non-empty, its first node has depth 1, every node depth lies in [1, 50], and
consecutive depths increase by at most one; and ber::parse never hits its
unchecked access of the first node (modelled as `.error .outOfBounds`). -/
theorem c9_parse_tree_invariants :
    (∀ (data : List Nat) (rules : EncodingRules) (ns : List ParserNode),
      parseResultParse data rules = .ok ns → nodesWellFormed ns) ∧
    (∀ data : List Nat, berParse data ≠ .error .outOfBounds) := by
  constructor
  · intro data rules ns h
    obtain ⟨hne, hall, hchain, hhead⟩ := parseResultParse_block data rules ns h
    refine ⟨hne, hhead, ?_, hchain⟩
    intro x hx
    obtain ⟨h1, h2, _⟩ := hall x hx
    exact ⟨h1, h2⟩
  · intro data
    rw [berParse]
    cases hp : parseResultParse data .basic with
    | error e =>
      have hno := parseResultParse_no_oob data .basic
      rw [hp] at hno
      have he : e ≠ ParseFail.outOfBounds := fun hh => hno (by rw [hh])
      show Except.error e ≠ _
      intro hcon
      injection hcon with h2
      exact he h2
    | ok ns =>
      obtain ⟨hne, hall, _, _⟩ := parseResultParse_block data .basic ns hp
      cases ns with
      | nil => exact absurd rfl hne
      | cons first tail =>
        show (if first.isConstructed then _ else _) ≠ _
        cases hc : first.isConstructed with
        | true => simp
        | false =>
          have hds := (hall first (by simp)).2.2 hc
          cases hdb : first.dataBytes with
          | none =>
            rw [hdb] at hds
            simp at hds
          | some db =>
            simp

theorem c9_parse_tree_invariants_witness :
    parseResultParse [0x02, 0x01, 0x00] .basic
        = .ok [⟨⟨2, .universal⟩, 1, false, [0x02, 0x01, 0x00], some [0x00]⟩] ∧
      nodesWellFormed [⟨⟨2, .universal⟩, 1, false, [0x02, 0x01, 0x00], some [0x00]⟩] ∧
      berParse [0x02, 0x01, 0x00] ≠ .error .outOfBounds :=
  ⟨by decide, c9_parse_tree_invariants.1 [0x02, 0x01, 0x00] .basic _ (by decide),
    c9_parse_tree_invariants.2 [0x02, 0x01, 0x00]⟩
